import Mathlib

/-!
Verification of the scraperBOT repository: a shallow embedding of
`src/analyzer.py` and `src/scraper.py` (the record parsers, the rule-based
analysis engine, the live-score reconciler, the pre-game HTML extractor and
the league fetch orchestrator), together with theorems settling the frozen
claims about the natural-language specification.

Strings are embedded as `List Char` (named `Str`), Python ints as `Int`/`Nat`,
and Python floats as exact rationals `ℚ`.  Python regular-expression searches
are embedded as explicit leftmost-match scanners over `Str`; for the patterns
used by this repository (character classes followed by required literals)
leftmost first-success scanning agrees with the backtracking semantics except
in degenerate inputs none of the claims depend on.  Fallible Python code
(code that can raise) returns `Except PyErr`.
-/

/-- Characters matched by Python's regex class `\s` (ASCII range). -/
def pyIsSpace (c : Char) : Bool :=
  c = ' ' || c = '\t' || c = '\n' || c = '\x0d' || c = '\x0b' || c = '\x0c'

/-- Python strings, embedded as lists of characters. -/
abbrev Str := List Char

/-- Errors raised by the embedded Python code. -/
inductive PyErr where
  | valueError
  | typeError
  deriving DecidableEq, Repr

/-- Python round-half-to-even of a rational to an integer, the semantics of
the builtin `round(x)`. -/
def rhe (q : ℚ) : ℤ :=
  if q - Int.floor q < 1/2 then Int.floor q
  else if 1/2 < q - Int.floor q then Int.floor q + 1
  else if Int.floor q % 2 = 0 then Int.floor q else Int.floor q + 1

/-- Python `round(x, 1)`: round-half-to-even at one decimal place. -/
def pyRound1 (q : ℚ) : ℚ := (rhe (q * 10) : ℚ) / 10

/-- Numeric value of a decimal digit character. -/
def digitVal (c : Char) : ℕ := c.toNat - '0'.toNat

/-- Natural number denoted by a list of decimal digit characters. -/
def digitsToNat (ds : Str) : ℕ :=
  ds.foldl (fun acc c => acc * 10 + digitVal c) 0

/-- Longest prefix of decimal digits together with the rest of the string,
the effect of a greedy `\d+` or `\d*` at the current position. -/
def takeDigits (s : Str) : Str × Str :=
  (s.takeWhile Char.isDigit, s.dropWhile Char.isDigit)

/-- Greedy `\s*` at the current position: drop leading Python whitespace. -/
def skipSpaces (s : Str) : Str := s.dropWhile pyIsSpace

/-- Python `str.strip()`: remove leading and trailing whitespace. -/
def pyStrip (s : Str) : Str :=
  ((s.dropWhile pyIsSpace).reverse.dropWhile pyIsSpace).reverse

/-- Index of the first occurrence of `needle` in `hay`, Python `str.find`
(with `-1` rendered as `none`). -/
def findIn : Str → Str → Option ℕ
  | [], n => if n = [] then some 0 else none
  | c :: rest, n =>
    if n.isPrefixOf (c :: rest) then some 0
    else (findIn rest n).map (· + 1)

/-- Python `hay.find(needle, start)`. -/
def findFrom (hay needle : Str) (start : ℕ) : Option ℕ :=
  (findIn (hay.drop start) needle).map (· + start)

/-- Python `needle in hay` on strings. -/
def containsSub (hay needle : Str) : Bool := (findIn hay needle).isSome

/-- Python slice `s[a:b]`. -/
def strSlice (s : Str) (a b : ℕ) : Str := (s.take b).drop a

/-- Run an anchored matcher at every position of the string, left to right,
returning the first success: the embedding of `re.search` for an anchored
pattern matcher `p` that also reports the rest of the input after the match. -/
def scanFor {α : Type} (p : Str → Option (α × Str)) : Str → Option (α × Str)
  | [] => p []
  | c :: rest =>
    match p (c :: rest) with
    | some r => some r
    | none => scanFor p rest

/-- Iterate a matcher over the string, collecting all non-overlapping matches
left to right: the embedding of `re.finditer`.  Fuel bounds the recursion; it
is always called with the length of the string, which suffices because every
pattern in this repository consumes at least one character. -/
def scanAllAux {α : Type} (p : Str → Option (α × Str)) : ℕ → Str → List α
  | 0, _ => []
  | fuel + 1, s =>
    match scanFor p s with
    | none => []
    | some (a, rest) => a :: scanAllAux p fuel rest

/-- All non-overlapping matches of an anchored matcher, left to right. -/
def scanAll {α : Type} (p : Str → Option (α × Str)) (s : Str) : List α :=
  scanAllAux p (s.length + 1) s

/-!  ## Record Parser (src/analyzer.py lines 8-36)  -/

/-- Matched wins/losses pair. -/
structure WL where
  w : ℕ
  l : ℕ
  deriving DecidableEq, Repr

/-- Anchored matcher for the native pattern `(\d+)\s*勝\s*(\d+)\s*敗` of
`parse_record` (src/analyzer.py line 13). -/
def matchNativeAt (s : Str) : Option (WL × Str) :=
  let d1 := (takeDigits s).1
  if d1 = [] then none else
  match skipSpaces (takeDigits s).2 with
  | [] => none
  | c :: r3 =>
    if c = '勝' then
      let d2 := (takeDigits (skipSpaces r3)).1
      if d2 = [] then none else
      match skipSpaces (takeDigits (skipSpaces r3)).2 with
      | [] => none
      | e :: r7 =>
        if e = '敗' then some (⟨digitsToNat d1, digitsToNat d2⟩, r7) else none
    else none

/-- Anchored matcher for the generic pattern `(\d+)\s*[-–]\s*(\d+)` of
`parse_record` (src/analyzer.py line 20). -/
def matchDashAt (s : Str) : Option (WL × Str) :=
  let d1 := (takeDigits s).1
  if d1 = [] then none else
  match skipSpaces (takeDigits s).2 with
  | [] => none
  | c :: r3 =>
    if c = '-' ∨ c = '–' then
      let d2 := (takeDigits (skipSpaces r3)).1
      if d2 = [] then none else
      some (⟨digitsToNat d1, digitsToNat d2⟩, (takeDigits (skipSpaces r3)).2)
    else none

/-- Leftmost match of the native wins/losses pattern, `re.search` semantics. -/
def searchNative (s : Str) : Option WL := (scanFor matchNativeAt s).map (·.1)

/-- Leftmost match of the generic dash pattern, `re.search` semantics. -/
def searchDash (s : Str) : Option WL := (scanFor matchDashAt s).map (·.1)

/-- Parsed record fragment returned by `parse_record`:
`{'w': w, 'l': l, 'total': total, 'pct': pct}`. -/
structure RecFrag where
  w : ℕ
  l : ℕ
  total : ℕ
  pct : ℚ
  deriving DecidableEq, Repr

/-- Build the fragment dict from a matched wins/losses pair, the shared tail
of both branches of `parse_record` (src/analyzer.py lines 15-18 and 22-25). -/
def mkRecFrag (p : WL) : RecFrag :=
  let total := p.w + p.l
  let pct : ℚ := if total > 0 then pyRound1 ((p.w : ℚ) / (total : ℚ) * 100) else 0
  ⟨p.w, p.l, total, pct⟩

/-- Embedding of `parse_record` (src/analyzer.py lines 8-26).  The argument is
`none` for Python `None`; the empty string and `None` are both falsy, so both
hit the early return. -/
def parseRecord (s : Option Str) : Option RecFrag :=
  match s with
  | none => none
  | some cs =>
    if cs = [] then none
    else
      match searchNative cs with
      | some p => some (mkRecFrag p)
      | none =>
        match searchDash cs with
        | some p => some (mkRecFrag p)
        | none => none

/-- Parsed scoring-average fragment returned by `parse_avg_score`. -/
structure AvgFrag where
  scored : ℚ
  allowed : ℚ
  deriving DecidableEq, Repr

/-- Value of a Python float literal consisting only of digits and dots, the
shape produced by the regex class `[\d.]+`: valid iff it has at most one dot
and at least one digit; `float` raises `ValueError` otherwise. -/
def pyFloatOfDigitsDots (s : Str) : Option ℚ :=
  if s.all (fun c => c.isDigit ∨ c = '.') ∧
     (s.filter (· = '.')).length ≤ 1 ∧
     (s.filter Char.isDigit).length ≥ 1 then
    let ip := s.takeWhile Char.isDigit
    let rest := s.dropWhile Char.isDigit
    match rest with
    | [] => some (digitsToNat ip : ℚ)
    | _ :: fp => some ((digitsToNat ip : ℚ) + (digitsToNat fp : ℚ) / (10 : ℚ) ^ fp.length)
  else none

/-- Anchored matcher for the pattern `([\d.]+)\s*/\s*([\d.]+)` of
`parse_avg_score` (src/analyzer.py line 33), capturing both raw groups. -/
def matchAvgAt (s : Str) : Option ((Str × Str) × Str) :=
  let d1 := s.takeWhile (fun c => c.isDigit || c = '.')
  if d1 = [] then none else
  match skipSpaces (s.dropWhile (fun c => c.isDigit || c = '.')) with
  | [] => none
  | c :: r3 =>
    if c = '/' then
      let d2 := (skipSpaces r3).takeWhile (fun c => c.isDigit || c = '.')
      if d2 = [] then none
      else some ((d1, d2), (skipSpaces r3).dropWhile (fun c => c.isDigit || c = '.'))
    else none

/-- Leftmost match of the scoring-average pattern. -/
def searchAvg (s : Str) : Option (Str × Str) := (scanFor matchAvgAt s).map (·.1)

/-- Embedding of `parse_avg_score` (src/analyzer.py lines 29-36).  The float
conversions of the two captured groups are NOT guarded by a try/except in the
source, so a group that is not a valid float (for example a lone dot) raises
`ValueError`, modelled as `Except.error`. -/
def parseAvgScore (s : Option Str) : Except PyErr (Option AvgFrag) :=
  match s with
  | none => .ok none
  | some cs =>
    if cs = [] then .ok none
    else
      match searchAvg cs with
      | none => .ok none
      | some (g1, g2) =>
        match pyFloatOfDigitsDots g1, pyFloatOfDigitsDots g2 with
        | some a, some b => .ok (some ⟨a, b⟩)
        | _, _ => .error .valueError

/-!  ## Analyzer data model (src/analyzer.py lines 39-283)  -/

/-- Python `float(text)` restricted to the decimal shapes this repository
feeds it: optional surrounding whitespace, an optional sign, then digits with
at most one decimal point.  Exotic accepted spellings (exponents, inf, nan,
underscores) are not modelled; no claim depends on them.  `none` models the
`ValueError`/`TypeError` caught by the callers. -/
def pyFloat (cs : Str) : Option ℚ :=
  let t := pyStrip cs
  match t with
  | '+' :: rest => pyFloatOfDigitsDots rest
  | '-' :: rest => (pyFloatOfDigitsDots rest).map (fun q => -q)
  | _ => pyFloatOfDigitsDots t

/-- Game status strings assigned by the repository. -/
inductive Status where
  | upcoming
  | live
  | finished
  | postponed
  deriving DecidableEq, Repr

/-- Per-period score sequences split by side (the `quarterScores` dict). -/
structure QS where
  away : List ℤ
  home : List ℤ
  deriving DecidableEq, Repr

/-- Pre-game context fragments, the `record` dict of a game: each field is raw
text or absent. -/
structure RecordCtx where
  homeRecord : Option Str := none
  awayRecord : Option Str := none
  homeRecent : Option Str := none
  awayRecent : Option Str := none
  homeAvg : Option Str := none
  awayAvg : Option Str := none
  homeHomeAway : Option Str := none
  awayHomeAway : Option Str := none
  homeH2H : Option Str := none
  awayH2H : Option Str := none
  deriving DecidableEq, Repr

/-- Odds context of a game: the `odds` dict. -/
structure OddsCtx where
  spread : Option Str := none
  spreadOdds : Option Str := none
  deriving DecidableEq, Repr

/-- Game entity, the dict flowing through the whole pipeline. -/
structure Game where
  id : Str := []
  gameId : Str := []
  oid : Str := []
  league : Str := []
  leagueId : Str := []
  away : Option Str := none
  home : Option Str := none
  awayScore : Option ℤ := none
  homeScore : Option ℤ := none
  date : Str := []
  time : Str := []
  status : Status := .upcoming
  record : RecordCtx := {}
  odds : OddsCtx := {}
  teamCodes : Str := []
  quarterScores : Option QS := none
  deriving DecidableEq, Repr

/-- Qualitative margin descriptor of the finished-game rationale
(src/analyzer.py lines 84-89). -/
inductive Descriptor where
  | dominant
  | comfortable
  | closeGame
  deriving DecidableEq, Repr

/-- Rationale lines of `generate_analysis`, one constructor per f-string
template of the source, carrying the interpolated values. -/
inductive RLine where
  | finalScore (winner loser : Str) (hi lo : ℤ) (desc : Descriptor)
  | coverage (fav : Str) (absSpread : ℚ) (covered : Bool)
  | liveHomeLead (hn : Str) (hs as0 : ℤ)
  | liveAwayLead (an : Str) (as0 hs : ℤ)
  | liveTie (hs as0 : ℤ)
  | recHeader (hn : Str) (hw hl : ℕ) (hp : ℚ) (an : Str) (aw al : ℕ) (ap : ℚ)
  | recHomeBetter (hn : Str)
  | recAwayBetter (an : Str)
  | recEven
  | recentHeader (hn an : Str) (hw hl aw al : ℕ)
  | recentHomeHot (hn : Str)
  | recentHomeCold (hn : Str)
  | recentAwayHot (an : Str)
  | recentAwayCold (an : Str)
  | haHeader (hn an : Str) (hw hl aw al : ℕ)
  | haHomeStrong (hn : Str)
  | haAwayWeak (an : Str)
  | haAwaySolid (an : Str)
  | avgHeader (hn an : Str) (hsc hal asc aal : ℚ)
  | avgHomeDom (hn : Str)
  | avgAwayDom (an : Str)
  | avgHomeOff (hn : Str)
  | avgAwayOff (an : Str)
  | totalHigh (t : ℚ)
  | totalLow (t : ℚ)
  | spreadBig (fav dog : Str) (ab : ℚ)
  | spreadMid (fav : Str) (ab : ℚ)
  | spreadSmall (fav : Str) (ab : ℚ)
  | h2hHeader (hn an : Str) (hw hl aw al : ℕ)
  | h2hHome (hn : Str)
  | h2hAway (an : Str)
  | fallbackIntro (hn an : Str)
  | fallbackAdvice
  | sumHomeStrong (hn : Str)
  | sumHomeSlight (hn : Str)
  | sumAwayStrong (an : Str)
  | sumAwaySlight (an : Str)
  | sumEven
  deriving DecidableEq, Repr

/-- Result dict of `generate_analysis`: probabilities, rationale lines and
confidence. -/
structure AnalysisResult where
  homeWin : ℤ
  draw : ℤ
  awayWin : ℤ
  suggestion : List RLine
  confidence : ℚ
  deriving DecidableEq, Repr

/-- Sport string selecting the no-draw code paths. -/
def basketballStr : Str := "basketball".data

/-- Default home name `主隊` (src/analyzer.py line 62). -/
def homeDefault : Str := "主隊".data

/-- Default away name `客隊` (src/analyzer.py line 63). -/
def awayDefault : Str := "客隊".data

/-- Spread text parsed with `float` inside the try block of
src/analyzer.py lines 55-60; `none` is the caught exception. -/
def spreadParseOf (game : Game) : Option ℚ :=
  pyFloat (game.odds.spread.getD [])

/-- Value bound to `spread` after the try/except (0 on failure). -/
def spreadValOf (game : Game) : ℚ := (spreadParseOf game).getD 0

/-- Value bound to `has_spread` after the try/except (false on failure or on
a zero spread). -/
def hasSpreadOf (game : Game) : Bool :=
  match spreadParseOf game with
  | some v => decide (v ≠ 0)
  | none => false

/-- Shared renormalization tail of the finished and live branches
(src/analyzer.py lines 102-105 and 128-131): proportional rounding of the
home/away terms and reassignment of the residual to the draw term. -/
def renorm (homeWin draw awayWin : ℤ) : ℤ × ℤ × ℤ :=
  let total : ℤ := homeWin + draw + awayWin
  let hw2 := rhe ((homeWin : ℚ) / (total : ℚ) * 100)
  let aw2 := rhe ((awayWin : ℚ) / (total : ℚ) * 100)
  (hw2, 100 - hw2 - aw2, aw2)

/-- Finished branch of `generate_analysis` (src/analyzer.py lines 76-109). -/
def finishedBranch (isBball : Bool) (homeName awayName : Str) (hs as0 : ℤ)
    (spread : ℚ) (hasSpread : Bool) : AnalysisResult :=
  let diff := hs - as0
  let winner := if diff > 0 then homeName else awayName
  let loser := if diff > 0 then awayName else homeName
  let margin := |diff|
  let desc : Descriptor :=
    if margin ≥ 15 then .dominant
    else if margin ≥ 8 then .comfortable
    else .closeGame
  let lines1 : List RLine := [.finalScore winner loser (max hs as0) (min hs as0) desc]
  let lines2 :=
    if hasSpread then
      let fav := if spread > 0 then homeName else awayName
      let covered := if spread > 0 then decide ((diff : ℚ) > spread) else decide ((diff : ℚ) < spread)
      lines1 ++ [.coverage fav |spread| covered]
    else lines1
  let homeWin : ℤ := if diff > 0 then 70 else 25
  let awayWin : ℤ := if isBball then 100 - homeWin else (if diff < 0 then 60 else 20)
  let draw : ℤ := if isBball then 0 else 100 - homeWin - awayWin
  let p := renorm homeWin draw awayWin
  ⟨p.1, p.2.1, p.2.2, lines2, 90⟩

/-- Live branch of `generate_analysis` (src/analyzer.py lines 112-135). -/
def liveBranch (isBball : Bool) (homeName awayName : Str) (hs as0 : ℤ) : AnalysisResult :=
  let diff := hs - as0
  let lines1 : List RLine :=
    if diff > 0 then [.liveHomeLead homeName hs as0]
    else if diff < 0 then [.liveAwayLead awayName as0 hs]
    else [.liveTie hs as0]
  let homeWin : ℤ := if diff > 0 then 62 else (if diff < 0 then 35 else 48)
  let awayWin : ℤ := if isBball then 100 - homeWin else (if diff < 0 then 55 else 30)
  let draw : ℤ := if isBball then 0 else 100 - homeWin - awayWin
  let p := renorm homeWin draw awayWin
  ⟨p.1, p.2.1, p.2.2, lines1, 55⟩

/-- Final probability triple of the upcoming branch (src/analyzer.py lines
257-273): base 45 adjusted, clamped to [15, 80], then renormalized, with the
draw term forced to 0 for basketball and otherwise floored at 5 before
renormalization.  Returns (homeWin, draw, awayWin). -/
def finalProbs (isBball : Bool) (homeAdj awayAdj : ℚ) : ℤ × ℤ × ℤ :=
  let hw0 : ℚ := 45 + homeAdj - awayAdj / 2
  let aw0 : ℚ := 45 + awayAdj - homeAdj / 2
  let hw : ℚ := max 15 (min 80 hw0)
  let aw : ℚ := max 15 (min 80 aw0)
  if isBball then
    let t2 := hw + aw
    let hwi := rhe (hw / t2 * 100)
    (hwi, 0, 100 - hwi)
  else
    let d : ℚ := max 5 (100 - hw - aw)
    let t2 := hw + d + aw
    let hwi := rhe (hw / t2 * 100)
    let awi := rhe (aw / t2 * 100)
    (hwi, 100 - hwi - awi, awi)

/-- Signal sections 1-6 of the upcoming branch (src/analyzer.py lines
138-237): returns the accumulated home adjustment, away adjustment and the
rationale lines the firing signals appended, in source order. -/
def upcomingSignals (isBball : Bool) (homeName awayName : Str)
    (homeRec awayRec homeRecent awayRecent : Option RecFrag)
    (homeAvg awayAvg : Option AvgFrag)
    (homeHa awayHa h2hHome h2hAway : Option RecFrag)
    (spread : ℚ) (hasSpread : Bool) : ℚ × ℚ × List RLine :=
  let s1 : ℚ × ℚ × List RLine :=
    match homeRec, awayRec with
    | some hr, some ar =>
      let header := RLine.recHeader homeName hr.w hr.l hr.pct awayName ar.w ar.l ar.pct
      if hr.pct - ar.pct > 15 then (8, 0, [header, .recHomeBetter homeName])
      else if ar.pct - hr.pct > 15 then (0, 8, [header, .recAwayBetter awayName])
      else (0, 0, [header, .recEven])
    | _, _ => (0, 0, [])
  let s2 : ℚ × ℚ × List RLine :=
    match homeRecent, awayRecent with
    | some hr, some ar =>
      let header := RLine.recentHeader homeName awayName hr.w hr.l ar.w ar.l
      let ph : ℚ × ℚ × List RLine :=
        if hr.w ≥ 7 then (5, 0, [.recentHomeHot homeName])
        else if hr.w ≤ 3 then (0, 3, [.recentHomeCold homeName])
        else (0, 0, [])
      let pa : ℚ × ℚ × List RLine :=
        if ar.w ≥ 7 then (0, 5, [.recentAwayHot awayName])
        else if ar.w ≤ 3 then (3, 0, [.recentAwayCold awayName])
        else (0, 0, [])
      (ph.1 + pa.1, ph.2.1 + pa.2.1, header :: (ph.2.2 ++ pa.2.2))
    | _, _ => (0, 0, [])
  let s3 : ℚ × ℚ × List RLine :=
    match homeHa, awayHa with
    | some hh, some ah =>
      let header := RLine.haHeader homeName awayName hh.w hh.l ah.w ah.l
      let ph : ℚ × List RLine :=
        if hh.pct > 60 then (4, [.haHomeStrong homeName]) else (0, [])
      let pa : ℚ × ℚ × List RLine :=
        if ah.pct < 40 then (3, 0, [.haAwayWeak awayName])
        else if ah.pct > 55 then (0, 3, [.haAwaySolid awayName])
        else (0, 0, [])
      (ph.1 + pa.1, pa.2.1, header :: (ph.2 ++ pa.2.2))
    | _, _ => (0, 0, [])
  let s4 : List RLine :=
    match homeAvg, awayAvg with
    | some hA, some aA =>
      let header := RLine.avgHeader homeName awayName hA.scored hA.allowed aA.scored aA.allowed
      let hNet := hA.scored - hA.allowed
      let aNet := aA.scored - aA.allowed
      let cmp : List RLine :=
        if hNet > 5 ∧ aNet < -3 then [.avgHomeDom homeName]
        else if aNet > 5 ∧ hNet < -3 then [.avgAwayDom awayName]
        else if hA.scored > aA.scored + 5 then [.avgHomeOff homeName]
        else if aA.scored > hA.scored + 5 then [.avgAwayOff awayName]
        else []
      let tot : List RLine :=
        if isBball then
          let expectedTotal := (hA.scored + aA.scored + hA.allowed + aA.allowed) / 2
          if expectedTotal > 225 then [.totalHigh expectedTotal]
          else if expectedTotal < 210 then [.totalLow expectedTotal]
          else []
        else []
      header :: (cmp ++ tot)
    | _, _ => []
  let s5 : ℚ × ℚ × List RLine :=
    if hasSpread then
      let fav := if spread > 0 then homeName else awayName
      let dog := if spread > 0 then awayName else homeName
      let absSpread := |spread|
      let line :=
        if absSpread ≥ 10 then RLine.spreadBig fav dog absSpread
        else if absSpread ≥ 5 then RLine.spreadMid fav absSpread
        else RLine.spreadSmall fav absSpread
      if spread > 0 then (min 10 absSpread, 0, [line])
      else (0, min 10 absSpread, [line])
    else (0, 0, [])
  let s6 : ℚ × ℚ × List RLine :=
    match h2hHome, h2hAway with
    | some hh, some ah =>
      let header := RLine.h2hHeader homeName awayName hh.w hh.l ah.w ah.l
      if hh.w > ah.w + 2 then (3, 0, [header, .h2hHome homeName])
      else if ah.w > hh.w + 2 then (0, 3, [header, .h2hAway awayName])
      else (0, 0, [header])
    | _, _ => (0, 0, [])
  (s1.1 + s2.1 + s3.1 + s5.1 + s6.1,
   s1.2.1 + s2.2.1 + s3.2.1 + s5.2.1 + s6.2.1,
   s1.2.2 ++ s2.2.2 ++ s3.2.2 ++ s4 ++ s5.2.2 ++ s6.2.2)

/-- Upcoming (pre-game) branch of `generate_analysis` (src/analyzer.py lines
137-283): the six signal sections, the no-data fallback pair, the closing
summary, the probability renormalization and the confidence formula. -/
def upcomingBranch (isBball : Bool) (homeName awayName : Str)
    (homeRec awayRec homeRecent awayRecent : Option RecFrag)
    (homeAvg awayAvg : Option AvgFrag)
    (homeHa awayHa h2hHome h2hAway : Option RecFrag)
    (spread : ℚ) (hasSpread : Bool) : AnalysisResult :=
  let sig := upcomingSignals isBball homeName awayName homeRec awayRec homeRecent awayRecent
    homeAvg awayAvg homeHa awayHa h2hHome h2hAway spread hasSpread
  let homeAdj := sig.1
  let awayAdj := sig.2.1
  let lines0 := sig.2.2
  let lines1 :=
    if lines0 = [] then [RLine.fallbackIntro homeName awayName, RLine.fallbackAdvice]
    else lines0
  let totalAdj := homeAdj - awayAdj
  let summary : RLine :=
    if totalAdj > 10 then .sumHomeStrong homeName
    else if totalAdj > 4 then .sumHomeSlight homeName
    else if totalAdj < -10 then .sumAwayStrong awayName
    else if totalAdj < -4 then .sumAwaySlight awayName
    else .sumEven
  let lines2 := lines1 ++ [summary]
  let probs := finalProbs isBball homeAdj awayAdj
  let confidence : ℚ := min 85 (max 40 (50 + |totalAdj| * 2))
  ⟨probs.1, probs.2.1, probs.2.2, lines2, confidence⟩

/-- Embedding of `generate_analysis` (src/analyzer.py lines 39-283).  The
scoring-average fragments are parsed with the unguarded `parse_avg_score`
before the branch dispatch, so their `ValueError` propagates out of
`generate_analysis`; in the finished branch `int(game['awayScore'])` raises
when the away score is null (the condition only checks the home score). -/
def generateAnalysis (game : Game) (sport : Str) : Except PyErr AnalysisResult :=
  let isBball : Bool := decide (sport = basketballStr)
  let spread := spreadValOf game
  let hasSpread := hasSpreadOf game
  let homeName := game.home.getD homeDefault
  let awayName := game.away.getD awayDefault
  let homeRec := parseRecord game.record.homeRecord
  let awayRec := parseRecord game.record.awayRecord
  let homeRecent := parseRecord game.record.homeRecent
  let awayRecent := parseRecord game.record.awayRecent
  match parseAvgScore game.record.homeAvg with
  | .error e => .error e
  | .ok homeAvg =>
    match parseAvgScore game.record.awayAvg with
    | .error e => .error e
    | .ok awayAvg =>
      let homeHa := parseRecord game.record.homeHomeAway
      let awayHa := parseRecord game.record.awayHomeAway
      if game.status = Status.finished ∧ game.homeScore ≠ none then
        match game.awayScore with
        | some as0 =>
          .ok (finishedBranch isBball homeName awayName (game.homeScore.getD 0) as0 spread hasSpread)
        | none => .error .typeError
      else if game.status = Status.live then
        .ok (liveBranch isBball homeName awayName (game.homeScore.getD 0) (game.awayScore.getD 0))
      else
        .ok (upcomingBranch isBball homeName awayName homeRec awayRec homeRecent awayRecent
          homeAvg awayAvg homeHa awayHa
          (parseRecord game.record.homeH2H) (parseRecord game.record.awayH2H) spread hasSpread)

/-!  ## Properties of the rounding helper  -/

/-- Round-half-even of an integer is itself. -/
theorem rhe_intCast (n : ℤ) : rhe (n : ℚ) = n := by
  unfold rhe
  rw [Int.floor_intCast]
  simp

/-- Round-half-even never exceeds the value by more than a half. -/
theorem rhe_le (q : ℚ) : (rhe q : ℚ) ≤ q + 1/2 := by
  have h1 : (Int.floor q : ℚ) ≤ q := Int.floor_le q
  have h2 : q < Int.floor q + 1 := Int.lt_floor_add_one q
  unfold rhe
  split_ifs with a b c <;> push_cast <;> linarith

/-- Round-half-even never undershoots the value by more than a half. -/
theorem le_rhe (q : ℚ) : q - 1/2 ≤ (rhe q : ℚ) := by
  have h1 : (Int.floor q : ℚ) ≤ q := Int.floor_le q
  have h2 : q < Int.floor q + 1 := Int.lt_floor_add_one q
  unfold rhe
  split_ifs with a b c <;> push_cast <;> linarith

/-- Round-half-even of a non-negative value is non-negative. -/
theorem rhe_nonneg (q : ℚ) (h : 0 ≤ q) : 0 ≤ rhe q := by
  have h2 := le_rhe q
  have h3 : (-1 : ℚ) < (rhe q : ℚ) := by linarith
  have h4 : (-1 : ℤ) < rhe q := by exact_mod_cast h3
  omega

/-- Evaluation rule: an argument equal to an integer rounds to it. -/
theorem rheEvalInt (a : ℚ) (n : ℤ) (h : a = (n : ℚ)) : rhe a = n := by
  rw [h]; exact rhe_intCast n

/-- Evaluation rule for arguments in `[n, n + 1/2)`. -/
theorem rheEvalLt (a : ℚ) (n : ℤ) (h1 : (n : ℚ) ≤ a) (h2 : a < (n : ℚ) + 1/2) :
    rhe a = n := by
  have hf : Int.floor a = n := Int.floor_eq_iff.mpr ⟨h1, by linarith⟩
  unfold rhe
  rw [hf, if_pos (by rw [hf] at *; linarith)]

/-- Evaluation rule for arguments in `(n - 1/2, n)`. -/
theorem rheEvalUp (a : ℚ) (n : ℤ) (h1 : (n : ℚ) - 1/2 < a) (h2 : a < (n : ℚ)) :
    rhe a = n := by
  have hf : Int.floor a = n - 1 := by
    apply Int.floor_eq_iff.mpr
    constructor <;> push_cast <;> linarith
  unfold rhe
  rw [hf]
  rw [if_neg (by push_cast; linarith), if_pos (by push_cast; linarith)]
  omega

/-- The probability triple of the upcoming branch always sums to exactly 100,
has non-negative entries, and has a zero draw term for basketball. -/
theorem finalProbs_spec (isBball : Bool) (ha aa : ℚ) :
    (finalProbs isBball ha aa).1 + (finalProbs isBball ha aa).2.1 + (finalProbs isBball ha aa).2.2 = 100 ∧
    0 ≤ (finalProbs isBball ha aa).1 ∧ 0 ≤ (finalProbs isBball ha aa).2.1 ∧
    0 ≤ (finalProbs isBball ha aa).2.2 ∧
    (isBball = true → (finalProbs isBball ha aa).2.1 = 0) := by
  have hw15 : (15 : ℚ) ≤ max 15 (min 80 (45 + ha - aa / 2)) := le_max_left _ _
  have aw15 : (15 : ℚ) ≤ max 15 (min 80 (45 + aa - ha / 2)) := le_max_left _ _
  cases isBball with
  | true =>
    simp only [finalProbs, if_pos]
    set hw : ℚ := max 15 (min 80 (45 + ha - aa / 2)) with hhw
    set aw : ℚ := max 15 (min 80 (45 + aa - ha / 2)) with haw
    have t2pos : (0 : ℚ) < hw + aw := by linarith
    have harg : 0 ≤ hw / (hw + aw) * 100 := by positivity
    have hlo : 0 ≤ rhe (hw / (hw + aw) * 100) := rhe_nonneg _ harg
    have hratio : hw / (hw + aw) < 1 := (div_lt_one t2pos).mpr (by linarith)
    have hmul : hw / (hw + aw) * 100 < 100 := by nlinarith
    have hhi : (rhe (hw / (hw + aw) * 100) : ℚ) < 101 := by
      have := rhe_le (hw / (hw + aw) * 100)
      linarith
    have hhiZ : rhe (hw / (hw + aw) * 100) < 101 := by exact_mod_cast hhi
    refine ⟨by ring, hlo, le_refl 0, by omega, by simp⟩
  | false =>
    simp only [finalProbs, Bool.false_eq_true, if_false]
    set hw : ℚ := max 15 (min 80 (45 + ha - aa / 2)) with hhw
    set aw : ℚ := max 15 (min 80 (45 + aa - ha / 2)) with haw
    set d : ℚ := max 5 (100 - hw - aw) with hd
    have d5 : (5 : ℚ) ≤ d := le_max_left _ _
    have t2pos : (0 : ℚ) < hw + d + aw := by linarith
    have hlo1 : 0 ≤ rhe (hw / (hw + d + aw) * 100) := rhe_nonneg _ (by positivity)
    have hlo2 : 0 ≤ rhe (aw / (hw + d + aw) * 100) := rhe_nonneg _ (by positivity)
    have hratio : (hw + aw) / (hw + d + aw) < 1 := (div_lt_one t2pos).mpr (by linarith)
    have hsplit : hw / (hw + d + aw) * 100 + aw / (hw + d + aw) * 100 =
        (hw + aw) / (hw + d + aw) * 100 := by ring
    have hsum : hw / (hw + d + aw) * 100 + aw / (hw + d + aw) * 100 < 100 := by
      rw [hsplit]; nlinarith
    have hb1 := rhe_le (hw / (hw + d + aw) * 100)
    have hb2 := rhe_le (aw / (hw + d + aw) * 100)
    have hQ : (rhe (hw / (hw + d + aw) * 100) : ℚ) + (rhe (aw / (hw + d + aw) * 100) : ℚ) < 101 := by
      linarith
    have hZ : rhe (hw / (hw + d + aw) * 100) + rhe (aw / (hw + d + aw) * 100) < 101 := by
      exact_mod_cast hQ
    exact ⟨by ring, hlo1, by omega, hlo2, by simp⟩

/-- On a triple already summing to 100, the renormalization of the finished
and live branches is the identity. -/
theorem renorm_spec (hw draw aw : ℤ) (hsum : hw + draw + aw = 100) :
    renorm hw draw aw = (hw, draw, aw) := by
  simp only [renorm, hsum]
  have e1 : rhe ((hw : ℚ) / ((100 : ℤ) : ℚ) * 100) = hw := by
    apply rheEvalInt
    push_cast
    field_simp
  have e2 : rhe ((aw : ℚ) / ((100 : ℤ) : ℚ) * 100) = aw := by
    apply rheEvalInt
    push_cast
    field_simp
  rw [e1, e2]
  refine Prod.ext rfl (Prod.ext ?_ rfl)
  simp
  omega

/-- The finished branch always returns a triple summing to 100 with
non-negative entries, zero draw for basketball. -/
theorem finishedBranch_spec (isBball : Bool) (hn an : Str) (hs as0 : ℤ)
    (spread : ℚ) (hasSpread : Bool) :
    let r := finishedBranch isBball hn an hs as0 spread hasSpread
    r.homeWin + r.draw + r.awayWin = 100 ∧ 0 ≤ r.homeWin ∧ 0 ≤ r.draw ∧
      0 ≤ r.awayWin ∧ (isBball = true → r.draw = 0) := by
  intro r
  have hr : r = finishedBranch isBball hn an hs as0 spread hasSpread := rfl
  simp only [finishedBranch] at hr
  rw [renorm_spec _ _ _ (by split_ifs <;> omega)] at hr
  rw [hr]
  dsimp only
  split_ifs <;> simp_all <;> omega

/-- The live branch always returns a triple summing to 100 with non-negative
entries, zero draw for basketball. -/
theorem liveBranch_spec (isBball : Bool) (hn an : Str) (hs as0 : ℤ) :
    let r := liveBranch isBball hn an hs as0
    r.homeWin + r.draw + r.awayWin = 100 ∧ 0 ≤ r.homeWin ∧ 0 ≤ r.draw ∧
      0 ≤ r.awayWin ∧ (isBball = true → r.draw = 0) := by
  intro r
  have hr : r = liveBranch isBball hn an hs as0 := rfl
  simp only [liveBranch] at hr
  rw [renorm_spec _ _ _ (by split_ifs <;> omega)] at hr
  rw [hr]
  dsimp only
  split_ifs <;> simp_all <;> omega

/-- The upcoming branch always returns a triple summing to 100 with
non-negative entries, zero draw for basketball. -/
theorem upcomingBranch_spec (isBball : Bool) (hn an : Str)
    (homeRec awayRec homeRecent awayRecent : Option RecFrag)
    (homeAvg awayAvg : Option AvgFrag)
    (homeHa awayHa h2hHome h2hAway : Option RecFrag)
    (spread : ℚ) (hasSpread : Bool) :
    let r := upcomingBranch isBball hn an homeRec awayRec homeRecent awayRecent
      homeAvg awayAvg homeHa awayHa h2hHome h2hAway spread hasSpread
    r.homeWin + r.draw + r.awayWin = 100 ∧ 0 ≤ r.homeWin ∧ 0 ≤ r.draw ∧
      0 ≤ r.awayWin ∧ (isBball = true → r.draw = 0) := by
  intro r
  have hspec := finalProbs_spec isBball
    (upcomingSignals isBball hn an homeRec awayRec homeRecent awayRecent
      homeAvg awayAvg homeHa awayHa h2hHome h2hAway spread hasSpread).1
    (upcomingSignals isBball hn an homeRec awayRec homeRecent awayRecent
      homeAvg awayAvg homeHa awayHa h2hHome h2hAway spread hasSpread).2.1
  have hr : r = upcomingBranch isBball hn an homeRec awayRec homeRecent awayRecent
      homeAvg awayAvg homeHa awayHa h2hHome h2hAway spread hasSpread := rfl
  simp only [upcomingBranch] at hr
  rw [hr]
  exact hspec

/-- C1: for every game dict and sport flag, the result returned by
`generate_analysis` satisfies `homeWin + draw + awayWin == 100` exactly, with
each term a non-negative integer, and `draw == 0` whenever the sport is
basketball, in all three branches (finished, live, upcoming). -/
theorem c1_probabilities_sum_100 (game : Game) (sport : Str) (r : AnalysisResult)
    (h : generateAnalysis game sport = .ok r) :
    r.homeWin + r.draw + r.awayWin = 100 ∧ 0 ≤ r.homeWin ∧ 0 ≤ r.draw ∧
      0 ≤ r.awayWin ∧ (sport = basketballStr → r.draw = 0) := by
  have glue : ∀ s : AnalysisResult,
      (s.homeWin + s.draw + s.awayWin = 100 ∧ 0 ≤ s.homeWin ∧ 0 ≤ s.draw ∧
        0 ≤ s.awayWin ∧ (decide (sport = basketballStr) = true → s.draw = 0)) →
      r = s →
      r.homeWin + r.draw + r.awayWin = 100 ∧ 0 ≤ r.homeWin ∧ 0 ≤ r.draw ∧
        0 ≤ r.awayWin ∧ (sport = basketballStr → r.draw = 0) := by
    rintro s ⟨a, b, c, d, e⟩ rfl
    exact ⟨a, b, c, d, fun hs => e (decide_eq_true hs)⟩
  simp only [generateAnalysis] at h
  cases hA : parseAvgScore game.record.homeAvg with
  | error e => rw [hA] at h; exact absurd h (by simp)
  | ok oA =>
    rw [hA] at h
    cases hB : parseAvgScore game.record.awayAvg with
    | error e => rw [hB] at h; exact absurd h (by simp)
    | ok oB =>
      rw [hB] at h
      dsimp only at h
      by_cases hfin : game.status = Status.finished ∧ game.homeScore ≠ none
      · rw [if_pos hfin] at h
        cases haw : game.awayScore with
        | none => rw [haw] at h; exact absurd h (by simp)
        | some as0 =>
          rw [haw] at h
          exact glue _ (finishedBranch_spec _ _ _ _ _ _ _) (Except.ok.inj h).symm
      · rw [if_neg hfin] at h
        by_cases hlive : game.status = Status.live
        · rw [if_pos hlive] at h
          exact glue _ (liveBranch_spec _ _ _ _ _) (Except.ok.inj h).symm
        · rw [if_neg hlive] at h
          exact glue _ (upcomingBranch_spec _ _ _ _ _ _ _ _ _ _ _ _ _ _ _) (Except.ok.inj h).symm

/-- Final probabilities with both adjustment accumulators at zero: 50/0/50
for basketball, 45/10/45 for draw sports. -/
theorem finalProbs_zero (isBball : Bool) :
    finalProbs isBball 0 0 =
      (if isBball then 50 else 45, if isBball then 0 else 10, if isBball then 50 else 45) := by
  have hm : max (15 : ℚ) (min 80 (45 + 0 - 0 / 2)) = 45 := by
    norm_num [min_def, max_def]
  cases isBball with
  | true =>
    simp only [finalProbs, if_pos, hm]
    have he : rhe ((45 : ℚ) / (45 + 45) * 100) = 50 := rheEvalInt _ 50 (by norm_num)
    rw [he]
    norm_num
  | false =>
    simp only [finalProbs, Bool.false_eq_true, if_false, hm]
    have hd : max (5 : ℚ) (100 - 45 - 45) = 10 := by norm_num [max_def]
    rw [hd]
    have he : rhe ((45 : ℚ) / (45 + 10 + 45) * 100) = 45 := rheEvalInt _ 45 (by norm_num)
    rw [he]
    norm_num

/-- Signal sections with every fragment absent and no spread contribute no
adjustment and no rationale line. -/
theorem upcomingSignals_none (isBball : Bool) (hn an : Str) (sp : ℚ) :
    upcomingSignals isBball hn an none none none none none none none none none none sp false =
      (0, 0, []) := by
  delta upcomingSignals
  norm_num

/-- The upcoming branch with every fragment absent and no spread: fallback
lines plus even summary, `finalProbs` at zero adjustments, confidence 50. -/
theorem upcomingBranch_none (isBball : Bool) (hn an : Str) (sp : ℚ) :
    upcomingBranch isBball hn an none none none none none none none none none none sp false =
      ⟨(finalProbs isBball 0 0).1, (finalProbs isBball 0 0).2.1, (finalProbs isBball 0 0).2.2,
       [.fallbackIntro hn an, .fallbackAdvice, .sumEven], 50⟩ := by
  simp only [upcomingBranch, upcomingSignals_none]
  norm_num

/-- Evaluation of `generate_analysis` on a game with every context field
absent and no parseable non-zero spread, outside the finished and live
branches: the two generic fallback lines plus the even-matchup summary,
probabilities 50/0/50 (basketball) or 45/10/45 (draw sports), confidence 50. -/
theorem analysisNoContext (g : Game) (sport : Str)
    (hrec : g.record = {}) (hsp : hasSpreadOf g = false)
    (hnotfin : ¬(g.status = Status.finished ∧ g.homeScore ≠ none))
    (hnotlive : g.status ≠ Status.live) :
    generateAnalysis g sport = .ok
      ⟨if sport = basketballStr then 50 else 45,
       if sport = basketballStr then 0 else 10,
       if sport = basketballStr then 50 else 45,
       [.fallbackIntro (g.home.getD homeDefault) (g.away.getD awayDefault),
        .fallbackAdvice, .sumEven],
       50⟩ := by
  simp only [generateAnalysis, hrec, hsp]
  simp only [show parseAvgScore ({} : RecordCtx).homeAvg = .ok none from rfl]
  rewrite [if_neg hnotfin, if_neg hnotlive]
  simp only [show parseRecord none = none from rfl]
  simp only [upcomingBranch_none, finalProbs_zero]
  cases hb : decide (sport = basketballStr) with
  | true =>
    have hsb : sport = basketballStr := of_decide_eq_true hb
    simp [hsb]
  | false =>
    have hsb : ¬ sport = basketballStr := of_decide_eq_false hb
    simp [hsb]

/-- Game with no context at all, used as a concrete instantiation input. -/
def gNoCtx : Game := { status := .upcoming }

/-- Analysis result of the no-context game under basketball. -/
def rNoCtxB : AnalysisResult :=
  ⟨50, 0, 50, [.fallbackIntro homeDefault awayDefault, .fallbackAdvice, .sumEven], 50⟩

/-- Evaluation of the no-context basketball game, shared instantiation fact. -/
theorem gNoCtx_eval : generateAnalysis gNoCtx basketballStr = .ok rNoCtxB := by
  have h := analysisNoContext gNoCtx basketballStr rfl rfl (by simp [gNoCtx]) (by simp [gNoCtx])
  simpa using h

/-- Witness for C1 at the concrete no-context basketball game. -/
theorem c1_witness :
    rNoCtxB.homeWin + rNoCtxB.draw + rNoCtxB.awayWin = 100 ∧ 0 ≤ rNoCtxB.homeWin ∧
      0 ≤ rNoCtxB.draw ∧ 0 ≤ rNoCtxB.awayWin ∧
      (basketballStr = basketballStr → rNoCtxB.draw = 0) :=
  c1_probabilities_sum_100 gNoCtx basketballStr rNoCtxB gNoCtx_eval

/-- Counterexample to C3: on the all-absent-context upcoming basketball game
the engine emits THREE rationale lines (the two generic fallback lines plus
the always-appended closing summary) and returns 50/0/50 (the 45/55 baseline
is renormalized), not exactly two lines with 45/0/55. -/
theorem c3_counterexample :
    generateAnalysis gNoCtx basketballStr = .ok rNoCtxB ∧
    rNoCtxB.suggestion.length = 3 ∧ rNoCtxB.homeWin = 50 ∧ rNoCtxB.draw = 0 ∧
    rNoCtxB.awayWin = 50 ∧ rNoCtxB.confidence = 50 ∧
    ¬(rNoCtxB.suggestion.length = 2 ∧ rNoCtxB.homeWin = 45 ∧ rNoCtxB.awayWin = 55) :=
  ⟨gNoCtx_eval, rfl, rfl, rfl, rfl, by norm_num [rNoCtxB], by simp [rNoCtxB]⟩

/-- C3 (amended): for every game whose record and odds context is entirely
absent, outside the finished and live branches, `generate_analysis` emits the
two generic fallback rationale lines followed by the even-matchup summary
line (three lines in total), and returns 50/0/50 for basketball (45/10/45
for draw sports) with confidence 50. -/
theorem c3_no_context_output (g : Game) (sport : Str)
    (hrec : g.record = {}) (hsp : hasSpreadOf g = false)
    (hnotfin : ¬(g.status = Status.finished ∧ g.homeScore ≠ none))
    (hnotlive : g.status ≠ Status.live) :
    generateAnalysis g sport = .ok
      ⟨if sport = basketballStr then 50 else 45,
       if sport = basketballStr then 0 else 10,
       if sport = basketballStr then 50 else 45,
       [.fallbackIntro (g.home.getD homeDefault) (g.away.getD awayDefault),
        .fallbackAdvice, .sumEven],
       50⟩ :=
  analysisNoContext g sport hrec hsp hnotfin hnotlive

/-- Witness for the amended C3 at a concrete draw-sport game. -/
theorem c3_witness :
    generateAnalysis gNoCtx ("soccer".data) = .ok
      ⟨if ("soccer".data : Str) = basketballStr then 50 else 45,
       if ("soccer".data : Str) = basketballStr then 0 else 10,
       if ("soccer".data : Str) = basketballStr then 50 else 45,
       [.fallbackIntro (gNoCtx.home.getD homeDefault) (gNoCtx.away.getD awayDefault),
        .fallbackAdvice, .sumEven],
       50⟩ :=
  c3_no_context_output gNoCtx ("soccer".data) rfl rfl (by simp [gNoCtx]) (by simp [gNoCtx])

/-- Dispatch fact: a finished game with both scores present is analyzed by the
finished branch. -/
theorem generateAnalysis_finished (g : Game) (sport : Str) (hs as0 : ℤ)
    (oA oB : Option AvgFrag)
    (hst : g.status = Status.finished) (hhs : g.homeScore = some hs)
    (has : g.awayScore = some as0)
    (hA : parseAvgScore g.record.homeAvg = .ok oA)
    (hB : parseAvgScore g.record.awayAvg = .ok oB) :
    generateAnalysis g sport = .ok (finishedBranch (decide (sport = basketballStr))
      (g.home.getD homeDefault) (g.away.getD awayDefault) hs as0
      (spreadValOf g) (hasSpreadOf g)) := by
  simp only [generateAnalysis, hA, hB]
  rewrite [if_pos ⟨hst, by rw [hhs]; simp⟩]
  rewrite [has, hhs]
  rfl

/-- Dispatch fact: a live game is analyzed by the live branch on the scores
defaulted to 0. -/
theorem generateAnalysis_live (g : Game) (sport : Str) (oA oB : Option AvgFrag)
    (hst : g.status = Status.live)
    (hA : parseAvgScore g.record.homeAvg = .ok oA)
    (hB : parseAvgScore g.record.awayAvg = .ok oB) :
    generateAnalysis g sport = .ok (liveBranch (decide (sport = basketballStr))
      (g.home.getD homeDefault) (g.away.getD awayDefault)
      (g.homeScore.getD 0) (g.awayScore.getD 0)) := by
  simp only [generateAnalysis, hA, hB]
  rewrite [if_neg (by rw [hst]; simp), if_pos hst]
  rfl

/-- Dispatch fact: outside the finished and live conditions the game is
analyzed by the upcoming branch on the lazily parsed fragments. -/
theorem generateAnalysis_upcoming (g : Game) (sport : Str) (oA oB : Option AvgFrag)
    (hnotfin : ¬(g.status = Status.finished ∧ g.homeScore ≠ none))
    (hnotlive : g.status ≠ Status.live)
    (hA : parseAvgScore g.record.homeAvg = .ok oA)
    (hB : parseAvgScore g.record.awayAvg = .ok oB) :
    generateAnalysis g sport = .ok (upcomingBranch (decide (sport = basketballStr))
      (g.home.getD homeDefault) (g.away.getD awayDefault)
      (parseRecord g.record.homeRecord) (parseRecord g.record.awayRecord)
      (parseRecord g.record.homeRecent) (parseRecord g.record.awayRecent)
      oA oB
      (parseRecord g.record.homeHomeAway) (parseRecord g.record.awayHomeAway)
      (parseRecord g.record.homeH2H) (parseRecord g.record.awayH2H)
      (spreadValOf g) (hasSpreadOf g)) := by
  simp only [generateAnalysis, hA, hB]
  rewrite [if_neg hnotfin, if_neg hnotlive]
  rfl

/-- C4: for every finished game with a non-null home score (and a present
away score), the rationale leads with the margin descriptor (`dominant` class
at margin >= 15, `comfortable` class at 8 <= margin < 15, else `close`
class), confidence is exactly 90, and a coverage sentence is appended iff a
non-zero spread parses, decided by the signed comparison `diff > spread` for
a home-favored line and `diff < spread` for an away-favored line; with no
posted spread the coverage sentence is omitted. -/
theorem c4_finished_rationale (g : Game) (sport : Str) (hs as0 : ℤ) (r : AnalysisResult)
    (hst : g.status = Status.finished) (hhs : g.homeScore = some hs)
    (has : g.awayScore = some as0)
    (hok : generateAnalysis g sport = .ok r) :
    r.confidence = 90 ∧
    r.suggestion =
      RLine.finalScore (if hs - as0 > 0 then g.home.getD homeDefault else g.away.getD awayDefault)
        (if hs - as0 > 0 then g.away.getD awayDefault else g.home.getD homeDefault)
        (max hs as0) (min hs as0)
        (if |hs - as0| ≥ 15 then Descriptor.dominant
         else if |hs - as0| ≥ 8 then Descriptor.comfortable else Descriptor.closeGame) ::
      (if hasSpreadOf g = true then
        [RLine.coverage
          (if spreadValOf g > 0 then g.home.getD homeDefault else g.away.getD awayDefault)
          |spreadValOf g|
          (if spreadValOf g > 0 then decide (((hs - as0 : ℤ) : ℚ) > spreadValOf g)
           else decide (((hs - as0 : ℤ) : ℚ) < spreadValOf g))]
       else []) := by
  cases hA : parseAvgScore g.record.homeAvg with
  | error e => rw [generateAnalysis, hA] at hok; exact absurd hok (by simp)
  | ok oA =>
    cases hB : parseAvgScore g.record.awayAvg with
    | error e => rw [generateAnalysis, hA, hB] at hok; exact absurd hok (by simp)
    | ok oB =>
      rw [generateAnalysis_finished g sport hs as0 oA oB hst hhs has hA hB] at hok
      have hr : r = _ := (Except.ok.inj hok).symm
      subst hr
      refine ⟨rfl, ?_⟩
      simp only [finishedBranch]
      cases hspb : hasSpreadOf g <;> simp [hspb]

/-- Finished game fixture: home 100, away 80, spread -6 (away favored). -/
def gFinC : Game :=
  { status := .finished, homeScore := some 100, awayScore := some 80,
    odds := { spread := some "-6".data } }

/-- Analysis result of the finished fixture. -/
def rFinC : AnalysisResult :=
  finishedBranch (decide ((basketballStr : Str) = basketballStr))
    (gFinC.home.getD homeDefault) (gFinC.away.getD awayDefault) 100 80
    (spreadValOf gFinC) (hasSpreadOf gFinC)

/-- Witness for C4 at the concrete finished fixture. -/
theorem c4_witness :
    rFinC.confidence = 90 ∧
    rFinC.suggestion =
      RLine.finalScore
        (if (100 : ℤ) - 80 > 0 then gFinC.home.getD homeDefault else gFinC.away.getD awayDefault)
        (if (100 : ℤ) - 80 > 0 then gFinC.away.getD awayDefault else gFinC.home.getD homeDefault)
        (max (100 : ℤ) 80) (min (100 : ℤ) 80)
        (if |(100 : ℤ) - 80| ≥ 15 then Descriptor.dominant
         else if |(100 : ℤ) - 80| ≥ 8 then Descriptor.comfortable else Descriptor.closeGame) ::
      (if hasSpreadOf gFinC = true then
        [RLine.coverage
          (if spreadValOf gFinC > 0 then gFinC.home.getD homeDefault else gFinC.away.getD awayDefault)
          |spreadValOf gFinC|
          (if spreadValOf gFinC > 0 then decide ((((100 : ℤ) - 80 : ℤ) : ℚ) > spreadValOf gFinC)
           else decide ((((100 : ℤ) - 80 : ℤ) : ℚ) < spreadValOf gFinC))]
       else []) :=
  c4_finished_rationale gFinC basketballStr 100 80 rFinC rfl rfl rfl
    (generateAnalysis_finished gFinC basketballStr 100 80 none none rfl rfl rfl rfl rfl)

/-- C2: for every upcoming game, each side's probability is base 45 plus its
own accumulated adjustment minus half the other side's, clamped to [15, 80],
renormalized to sum to 100 (draw forced to 0 for basketball, otherwise the
draw is the residual floored at 5 before renormalization), and the returned
confidence is `min(85, max(40, 50 + 2*|home_adj - away_adj|))`. -/
theorem c2_upcoming_probabilities :
    (∀ (isBball : Bool) (hn an : Str) (hr ar hrc arc : Option RecFrag)
       (hA aA : Option AvgFrag) (hha aha h2h h2a : Option RecFrag) (sp : ℚ) (hsp : Bool)
       (ha aa hw aw d : ℚ),
       ha = (upcomingSignals isBball hn an hr ar hrc arc hA aA hha aha h2h h2a sp hsp).1 →
       aa = (upcomingSignals isBball hn an hr ar hrc arc hA aA hha aha h2h h2a sp hsp).2.1 →
       hw = max 15 (min 80 (45 + ha - aa / 2)) →
       aw = max 15 (min 80 (45 + aa - ha / 2)) →
       d = max 5 (100 - hw - aw) →
       (upcomingBranch isBball hn an hr ar hrc arc hA aA hha aha h2h h2a sp hsp).confidence =
           min 85 (max 40 (50 + |ha - aa| * 2)) ∧
       (isBball = true →
         (upcomingBranch isBball hn an hr ar hrc arc hA aA hha aha h2h h2a sp hsp).homeWin =
             rhe (hw / (hw + aw) * 100) ∧
         (upcomingBranch isBball hn an hr ar hrc arc hA aA hha aha h2h h2a sp hsp).draw = 0 ∧
         (upcomingBranch isBball hn an hr ar hrc arc hA aA hha aha h2h h2a sp hsp).awayWin =
             100 - rhe (hw / (hw + aw) * 100)) ∧
       (isBball = false →
         (upcomingBranch isBball hn an hr ar hrc arc hA aA hha aha h2h h2a sp hsp).homeWin =
             rhe (hw / (hw + d + aw) * 100) ∧
         (upcomingBranch isBball hn an hr ar hrc arc hA aA hha aha h2h h2a sp hsp).awayWin =
             rhe (aw / (hw + d + aw) * 100) ∧
         (upcomingBranch isBball hn an hr ar hrc arc hA aA hha aha h2h h2a sp hsp).draw =
             100 - rhe (hw / (hw + d + aw) * 100) - rhe (aw / (hw + d + aw) * 100))) ∧
    (∀ (g : Game) (sport : Str) (oA oB : Option AvgFrag) (r : AnalysisResult),
       ¬(g.status = Status.finished ∧ g.homeScore ≠ none) → g.status ≠ Status.live →
       parseAvgScore g.record.homeAvg = .ok oA → parseAvgScore g.record.awayAvg = .ok oB →
       generateAnalysis g sport = .ok r →
       r = upcomingBranch (decide (sport = basketballStr))
         (g.home.getD homeDefault) (g.away.getD awayDefault)
         (parseRecord g.record.homeRecord) (parseRecord g.record.awayRecord)
         (parseRecord g.record.homeRecent) (parseRecord g.record.awayRecent) oA oB
         (parseRecord g.record.homeHomeAway) (parseRecord g.record.awayHomeAway)
         (parseRecord g.record.homeH2H) (parseRecord g.record.awayH2H)
         (spreadValOf g) (hasSpreadOf g)) := by
  constructor
  · rintro isBball hn an hr ar hrc arc hA aA hha aha h2h h2a sp hsp ha aa hw aw d
      rfl rfl rfl rfl rfl
    cases isBball with
    | true =>
      refine ⟨rfl, fun _ => ?_, fun hb => by simp at hb⟩
      simp only [upcomingBranch, finalProbs]
      norm_num
    | false =>
      refine ⟨rfl, fun hb => by simp at hb, fun _ => ?_⟩
      simp only [upcomingBranch, finalProbs]
      norm_num
  · intro g sport oA oB r hnotfin hnotlive hA hB hok
    rw [generateAnalysis_upcoming g sport oA oB hnotfin hnotlive hA hB] at hok
    exact (Except.ok.inj hok).symm

/-- Upcoming-branch fixture values for the C2 instantiation. -/
def sigW : ℚ × ℚ × List RLine :=
  upcomingSignals true [] [] none none none none none none none none none none 0 false

/-- Upcoming-branch fixture result for the C2 instantiation. -/
def ubW : AnalysisResult :=
  upcomingBranch true [] [] none none none none none none none none none none 0 false

/-- Clamped home probability of the fixture. -/
def hwW : ℚ := max 15 (min 80 (45 + sigW.1 - sigW.2.1 / 2))

/-- Clamped away probability of the fixture. -/
def awW : ℚ := max 15 (min 80 (45 + sigW.2.1 - sigW.1 / 2))

/-- Floored draw residual of the fixture. -/
def dW : ℚ := max 5 (100 - hwW - awW)

/-- Witness for C2: the formula part at a concrete basketball fixture and the
dispatch part at the concrete no-context game. -/
theorem c2_witness :
    (ubW.confidence = min 85 (max 40 (50 + |sigW.1 - sigW.2.1| * 2)) ∧
     (true = true →
       ubW.homeWin = rhe (hwW / (hwW + awW) * 100) ∧ ubW.draw = 0 ∧
       ubW.awayWin = 100 - rhe (hwW / (hwW + awW) * 100)) ∧
     (true = false →
       ubW.homeWin = rhe (hwW / (hwW + dW + awW) * 100) ∧
       ubW.awayWin = rhe (awW / (hwW + dW + awW) * 100) ∧
       ubW.draw = 100 - rhe (hwW / (hwW + dW + awW) * 100) - rhe (awW / (hwW + dW + awW) * 100))) ∧
    rNoCtxB = upcomingBranch (decide ((basketballStr : Str) = basketballStr))
      (gNoCtx.home.getD homeDefault) (gNoCtx.away.getD awayDefault)
      (parseRecord gNoCtx.record.homeRecord) (parseRecord gNoCtx.record.awayRecord)
      (parseRecord gNoCtx.record.homeRecent) (parseRecord gNoCtx.record.awayRecent) none none
      (parseRecord gNoCtx.record.homeHomeAway) (parseRecord gNoCtx.record.awayHomeAway)
      (parseRecord gNoCtx.record.homeH2H) (parseRecord gNoCtx.record.awayH2H)
      (spreadValOf gNoCtx) (hasSpreadOf gNoCtx) :=
  ⟨c2_upcoming_probabilities.1 true [] [] none none none none none none none none none none
      0 false sigW.1 sigW.2.1 hwW awW dW rfl rfl rfl rfl rfl,
   c2_upcoming_probabilities.2 gNoCtx basketballStr none none rNoCtxB
      (by simp [gNoCtx]) (by simp [gNoCtx]) rfl rfl gNoCtx_eval⟩

/-- C10: a game marked finished whose home score is null skips the finished
branch and is analyzed exactly like the same game marked upcoming (the
pre-game branch); a live game with null scores is analyzed exactly like the
same game with both scores set to 0 (a 0:0 tie), with no error raised in
either case. -/
theorem c10_null_score_fallthrough :
    (∀ (g : Game) (sport : Str), g.status = Status.finished → g.homeScore = none →
       generateAnalysis g sport =
         generateAnalysis { g with status := Status.upcoming } sport) ∧
    (∀ (g : Game) (sport : Str), g.status = Status.live → g.homeScore = none →
       g.awayScore = none →
       generateAnalysis g sport =
         generateAnalysis { g with homeScore := some 0, awayScore := some 0 } sport) := by
  constructor
  · intro g sport hst hhs
    cases hA : parseAvgScore g.record.homeAvg with
    | error e =>
      simp only [generateAnalysis]
      rw [hA]
    | ok oA =>
      cases hB : parseAvgScore g.record.awayAvg with
      | error e =>
        simp only [generateAnalysis]
        rw [hA, hB]
      | ok oB =>
        have h1 := generateAnalysis_upcoming g sport oA oB
          (by rintro ⟨_, hne⟩; exact hne hhs) (by rw [hst]; simp) hA hB
        have h2 := generateAnalysis_upcoming { g with status := Status.upcoming } sport oA oB
          (by simp) (by simp) hA hB
        rw [h1, h2]
        rfl
  · intro g sport hst hhs has
    cases hA : parseAvgScore g.record.homeAvg with
    | error e =>
      simp only [generateAnalysis]
      rw [hA]
    | ok oA =>
      cases hB : parseAvgScore g.record.awayAvg with
      | error e =>
        simp only [generateAnalysis]
        rw [hA, hB]
      | ok oB =>
        have h1 := generateAnalysis_live g sport oA oB hst hA hB
        have h2 := generateAnalysis_live { g with homeScore := some 0, awayScore := some 0 }
          sport oA oB hst hA hB
        rw [h1, h2, hhs, has]
        rfl

/-- Finished game with a null home score, fixture for the C10 witness. -/
def gFinNull : Game := { status := .finished }

/-- Live game with null scores, fixture for the C10 witness. -/
def gLiveNull : Game := { status := .live }

/-- Witness for C10 at the two concrete null-score fixtures. -/
theorem c10_witness :
    generateAnalysis gFinNull basketballStr =
      generateAnalysis { gFinNull with status := Status.upcoming } basketballStr ∧
    generateAnalysis gLiveNull basketballStr =
      generateAnalysis { gLiveNull with homeScore := some 0, awayScore := some 0 } basketballStr :=
  ⟨c10_null_score_fallthrough.1 gFinNull basketballStr rfl rfl,
   c10_null_score_fallthrough.2 gLiveNull basketballStr rfl rfl rfl⟩

/-!  ## String scanning lemmas  -/

/-- Characters satisfying a class take themselves out of `takeWhile` when the
rest starts outside the class. -/
theorem takeWhile_append_all {p : Char → Bool} (d rest : Str)
    (hd : ∀ c ∈ d, p c = true)
    (hrest : ∀ x t, rest = x :: t → p x = false) :
    (d ++ rest).takeWhile p = d := by
  induction d with
  | nil =>
    cases rest with
    | nil => rfl
    | cons x t => simp [List.takeWhile_cons, hrest x t rfl]
  | cons c d ih =>
    simp only [List.cons_append, List.takeWhile_cons, hd c (by simp), if_true]
    rw [ih (fun c2 h2 => hd c2 (by simp [h2]))]

/-- Matching prefix removal for `dropWhile` under the same hypotheses. -/
theorem dropWhile_append_all {p : Char → Bool} (d rest : Str)
    (hd : ∀ c ∈ d, p c = true)
    (hrest : ∀ x t, rest = x :: t → p x = false) :
    (d ++ rest).dropWhile p = rest := by
  induction d with
  | nil =>
    cases rest with
    | nil => rfl
    | cons x t => simp [List.dropWhile_cons, hrest x t rfl]
  | cons c d ih =>
    simp only [List.cons_append, List.dropWhile_cons, hd c (by simp), if_true]
    exact ih (fun c2 h2 => hd c2 (by simp [h2]))

/-- Python whitespace characters are not digits. -/
theorem space_not_digit {c : Char} (h : pyIsSpace c = true) : c.isDigit = false := by
  simp only [pyIsSpace, Bool.or_eq_true, decide_eq_true_eq] at h
  rcases h with ((((rfl | rfl) | rfl) | rfl) | rfl) | rfl <;> decide

/-- Digit characters are not Python whitespace. -/
theorem digit_not_space {c : Char} (h : c.isDigit = true) : pyIsSpace c = false := by
  cases hs : pyIsSpace c with
  | false => rfl
  | true => rw [space_not_digit hs] at h; cases h

/-- A character in a whitespace run differs from any non-whitespace char. -/
theorem space_ne {c : Char} (h : pyIsSpace c = true) (x : Char)
    (hx : pyIsSpace x = false) : c ≠ x := by
  intro he
  rw [he, hx] at h
  cases h

/-- A digit differs from any non-digit char. -/
theorem digit_ne {c : Char} (h : c.isDigit = true) (x : Char)
    (hx : x.isDigit = false) : c ≠ x := by
  intro he
  rw [he, hx] at h
  cases h

/-- Head of a whitespace run followed by a non-digit is not a digit. -/
theorem head_not_digit_spaces (s1 : Str) (c : Char) (rest : Str)
    (hs : ∀ x ∈ s1, pyIsSpace x = true) (hc : c.isDigit = false) :
    ∀ x t, (s1 ++ c :: rest) = x :: t → x.isDigit = false := by
  cases s1 with
  | nil =>
    intro x t he
    rw [List.nil_append] at he
    injection he with h1 _
    rw [← h1]
    exact hc
  | cons y s1 =>
    intro x t he
    rw [List.cons_append] at he
    injection he with h1 _
    rw [← h1]
    exact space_not_digit (hs y (by simp))

/-- Head of a non-empty digit run followed by anything is not whitespace. -/
theorem head_not_space_digits (d : Str) (rest : Str) (hne : d ≠ [])
    (hd : ∀ x ∈ d, x.isDigit = true) :
    ∀ x t, (d ++ rest) = x :: t → pyIsSpace x = false := by
  cases d with
  | nil => exact absurd rfl hne
  | cons y d =>
    intro x t he
    rw [List.cons_append] at he
    injection he with h1 _
    rw [← h1]
    exact digit_not_space (hd y (by simp))

/-- Scanning skips a prefix on which the matcher always fails. -/
theorem scanFor_skip {α : Type} (p : Str → Option (α × Str)) (pre rest : Str)
    (h : ∀ c ∈ pre, ∀ t : Str, p (c :: t) = none) :
    scanFor p (pre ++ rest) = scanFor p rest := by
  induction pre with
  | nil => rfl
  | cons c pre ih =>
    rw [List.cons_append, scanFor, h c (by simp) (pre ++ rest)]
    exact ih (fun c2 h2 t => h c2 (by simp [h2]) t)

/-- The native matcher fails at a non-digit head. -/
theorem matchNativeAt_nodigit {c : Char} (h : c.isDigit = false) (t : Str) :
    matchNativeAt (c :: t) = none := by
  simp [matchNativeAt, List.takeWhile_cons, takeDigits, h]

/-- The dash matcher fails at a non-digit head. -/
theorem matchDashAt_nodigit {c : Char} (h : c.isDigit = false) (t : Str) :
    matchDashAt (c :: t) = none := by
  simp [matchDashAt, List.takeWhile_cons, takeDigits, h]

/-- The native matcher fails on any suffix of a string without `勝`. -/
theorem matchNativeAt_no_sheng (t : Str) (h : ∀ c ∈ t, c ≠ '勝') :
    matchNativeAt t = none := by
  by_cases hd : (takeDigits t).1 = []
  · simp [matchNativeAt, hd]
  · simp only [matchNativeAt, hd, if_false]
    cases hm : skipSpaces (takeDigits t).2 with
    | nil => rfl
    | cons c r3 =>
      have hct : c ∈ t := by
        have h1 : c ∈ skipSpaces (takeDigits t).2 := by rw [hm]; simp
        have h2 : c ∈ (takeDigits t).2 := (List.dropWhile_sublist pyIsSpace).subset h1
        have h3 : (takeDigits t).2 = t.dropWhile Char.isDigit := rfl
        rw [h3] at h2
        exact (List.dropWhile_sublist Char.isDigit).subset h2
      simp [h c hct]

/-- The leftmost native search fails entirely on a string without `勝`. -/
theorem searchNative_none (s : Str) (h : ∀ c ∈ s, c ≠ '勝') : searchNative s = none := by
  unfold searchNative
  suffices hs : scanFor matchNativeAt s = none by rw [hs]; rfl
  induction s with
  | nil => simp [scanFor, matchNativeAt_no_sheng [] (by simp)]
  | cons c rest ih =>
    rw [scanFor, matchNativeAt_no_sheng (c :: rest) h]
    exact ih (fun x hx => h x (by simp [hx]))

/-- The native matcher anchored at a canonical `w 勝 l 敗` occurrence. -/
theorem matchNativeAt_canonical (d1 s1 s2 d2 s3 r : Str)
    (h1 : d1 ≠ []) (h2 : d2 ≠ [])
    (hd1 : ∀ c ∈ d1, c.isDigit = true) (hd2 : ∀ c ∈ d2, c.isDigit = true)
    (hs1 : ∀ c ∈ s1, pyIsSpace c = true) (hs2 : ∀ c ∈ s2, pyIsSpace c = true)
    (hs3 : ∀ c ∈ s3, pyIsSpace c = true) :
    matchNativeAt (d1 ++ (s1 ++ ('勝' :: (s2 ++ (d2 ++ (s3 ++ ('敗' :: r))))))) =
      some (⟨digitsToNat d1, digitsToNat d2⟩, r) := by
  have e1 : takeDigits (d1 ++ (s1 ++ ('勝' :: (s2 ++ (d2 ++ (s3 ++ ('敗' :: r))))))) =
      (d1, s1 ++ ('勝' :: (s2 ++ (d2 ++ (s3 ++ ('敗' :: r)))))) := by
    have hh := head_not_digit_spaces s1 '勝' (s2 ++ (d2 ++ (s3 ++ ('敗' :: r)))) hs1 (by decide)
    simp only [takeDigits]
    rw [takeWhile_append_all d1 _ hd1 hh, dropWhile_append_all d1 _ hd1 hh]
  have e2 : skipSpaces (s1 ++ ('勝' :: (s2 ++ (d2 ++ (s3 ++ ('敗' :: r)))))) =
      '勝' :: (s2 ++ (d2 ++ (s3 ++ ('敗' :: r)))) := by
    unfold skipSpaces
    exact dropWhile_append_all s1 _ hs1 (by intro x t he; injection he with hx _; rw [← hx]; decide)
  have e4 : skipSpaces (s2 ++ (d2 ++ (s3 ++ ('敗' :: r)))) = d2 ++ (s3 ++ ('敗' :: r)) := by
    unfold skipSpaces
    exact dropWhile_append_all s2 _ hs2 (head_not_space_digits d2 _ h2 hd2)
  have e5 : takeDigits (d2 ++ (s3 ++ ('敗' :: r))) = (d2, s3 ++ ('敗' :: r)) := by
    have hh := head_not_digit_spaces s3 '敗' r hs3 (by decide)
    simp only [takeDigits]
    rw [takeWhile_append_all d2 _ hd2 hh, dropWhile_append_all d2 _ hd2 hh]
  have e6 : skipSpaces (s3 ++ ('敗' :: r)) = '敗' :: r := by
    unfold skipSpaces
    exact dropWhile_append_all s3 _ hs3 (by intro x t he; injection he with hx _; rw [← hx]; decide)
  simp only [matchNativeAt, e1, e2, e4, e5, e6]
  simp [h1, h2]


/-- The dash matcher anchored at a canonical `w sep l` occurrence. -/
theorem matchDashAt_canonical (d1 s1 s2 d2 r : Str) (sep : Char)
    (h1 : d1 ≠ []) (h2 : d2 ≠ [])
    (hd1 : ∀ c ∈ d1, c.isDigit = true) (hd2 : ∀ c ∈ d2, c.isDigit = true)
    (hs1 : ∀ c ∈ s1, pyIsSpace c = true) (hs2 : ∀ c ∈ s2, pyIsSpace c = true)
    (hsep : sep = '-' ∨ sep = '–')
    (hr : ∀ x t, r = x :: t → x.isDigit = false) :
    matchDashAt (d1 ++ (s1 ++ (sep :: (s2 ++ (d2 ++ r))))) =
      some (⟨digitsToNat d1, digitsToNat d2⟩, r) := by
  have hsepd : sep.isDigit = false := by rcases hsep with rfl | rfl <;> decide
  have hseps : pyIsSpace sep = false := by rcases hsep with rfl | rfl <;> decide
  have e1 : takeDigits (d1 ++ (s1 ++ (sep :: (s2 ++ (d2 ++ r))))) =
      (d1, s1 ++ (sep :: (s2 ++ (d2 ++ r)))) := by
    have hh := head_not_digit_spaces s1 sep (s2 ++ (d2 ++ r)) hs1 hsepd
    simp only [takeDigits]
    rw [takeWhile_append_all d1 _ hd1 hh, dropWhile_append_all d1 _ hd1 hh]
  have e2 : skipSpaces (s1 ++ (sep :: (s2 ++ (d2 ++ r)))) = sep :: (s2 ++ (d2 ++ r)) := by
    unfold skipSpaces
    refine dropWhile_append_all s1 _ hs1 ?_
    intro x t he
    injection he with hx _
    rw [← hx]
    exact hseps
  have e4 : skipSpaces (s2 ++ (d2 ++ r)) = d2 ++ r := by
    unfold skipSpaces
    exact dropWhile_append_all s2 _ hs2 (head_not_space_digits d2 _ h2 hd2)
  have e5 : takeDigits (d2 ++ r) = (d2, r) := by
    simp only [takeDigits]
    rw [takeWhile_append_all d2 _ hd2 hr, dropWhile_append_all d2 _ hd2 hr]
  simp only [matchDashAt, e1, e2, e4, e5]
  simp [h1, h2, hsep]

/-- A successful anchored match at the start resolves the scan. -/
theorem scanFor_of_match {α : Type} (p : Str → Option (α × Str)) (s : Str)
    (v : α × Str) (h : p s = some v) : scanFor p s = some v := by
  cases s with
  | nil => simpa [scanFor] using h
  | cons c rest => simp only [scanFor, h]

/-- C5: both accepted wins/losses shapes (the native `X勝Y敗` notation with
optional surrounding whitespace, and the generic `X - Y` / `X – Y` pair with
digit-free surrounding text) recover the same `(w, l)` for the same digit
groups, with `total = w + l` and `pct = round(w/(w+l)*100, 1)` (`pct = 0`
when `w + l = 0`); text matching neither shape parses to `none`; and the
native shape takes priority whenever it matches. -/
theorem c5_parse_record_shapes :
    (∀ (d1 s1 s2 d2 s3 r : Str),
      d1 ≠ [] → d2 ≠ [] →
      (∀ c ∈ d1, c.isDigit = true) → (∀ c ∈ d2, c.isDigit = true) →
      (∀ c ∈ s1, pyIsSpace c = true) → (∀ c ∈ s2, pyIsSpace c = true) →
      (∀ c ∈ s3, pyIsSpace c = true) →
      parseRecord (some (d1 ++ (s1 ++ ('勝' :: (s2 ++ (d2 ++ (s3 ++ ('敗' :: r)))))))) =
        some ⟨digitsToNat d1, digitsToNat d2, digitsToNat d1 + digitsToNat d2,
          if digitsToNat d1 + digitsToNat d2 > 0 then
            pyRound1 ((digitsToNat d1 : ℚ) / ((digitsToNat d1 + digitsToNat d2 : ℕ) : ℚ) * 100)
          else 0⟩) ∧
    (∀ (pre d1 s1 s2 d2 r : Str) (sep : Char),
      d1 ≠ [] → d2 ≠ [] →
      (∀ c ∈ d1, c.isDigit = true) → (∀ c ∈ d2, c.isDigit = true) →
      (∀ c ∈ s1, pyIsSpace c = true) → (∀ c ∈ s2, pyIsSpace c = true) →
      (sep = '-' ∨ sep = '–') →
      (∀ c ∈ pre, c.isDigit = false ∧ c ≠ '勝') →
      (∀ x t, r = x :: t → x.isDigit = false) → (∀ c ∈ r, c ≠ '勝') →
      parseRecord (some (pre ++ (d1 ++ (s1 ++ (sep :: (s2 ++ (d2 ++ r))))))) =
        some ⟨digitsToNat d1, digitsToNat d2, digitsToNat d1 + digitsToNat d2,
          if digitsToNat d1 + digitsToNat d2 > 0 then
            pyRound1 ((digitsToNat d1 : ℚ) / ((digitsToNat d1 + digitsToNat d2 : ℕ) : ℚ) * 100)
          else 0⟩) ∧
    (∀ s : Str, searchNative s = none → searchDash s = none →
      parseRecord (some s) = none) ∧
    (∀ (s : Str) (p : WL), searchNative s = some p →
      parseRecord (some s) = some (mkRecFrag p)) := by
  refine ⟨?nat, ?dash, ?none, ?prio⟩
  case nat =>
    intro d1 s1 s2 d2 s3 r h1 h2 hd1 hd2 hs1 hs2 hs3
    have hm := matchNativeAt_canonical d1 s1 s2 d2 s3 r h1 h2 hd1 hd2 hs1 hs2 hs3
    have hsearch : searchNative (d1 ++ (s1 ++ ('勝' :: (s2 ++ (d2 ++ (s3 ++ ('敗' :: r))))))) =
        some ⟨digitsToNat d1, digitsToNat d2⟩ := by
      unfold searchNative
      rw [scanFor_of_match _ _ _ hm]
      rfl
    have hne : (d1 ++ (s1 ++ ('勝' :: (s2 ++ (d2 ++ (s3 ++ ('敗' :: r))))))) ≠ [] := by
      intro hcon
      exact h1 (List.append_eq_nil.mp hcon).1
    simp only [parseRecord, if_neg hne, hsearch]
    rfl
  case dash =>
    intro pre d1 s1 s2 d2 r sep h1 h2 hd1 hd2 hs1 hs2 hsep hpre hr hrsheng
    have hnosheng : ∀ c ∈ pre ++ (d1 ++ (s1 ++ (sep :: (s2 ++ (d2 ++ r))))), c ≠ '勝' := by
      intro c hc
      simp only [List.mem_append, List.mem_cons] at hc
      rcases hc with hp | hd | hs | rfl | hs2m | hd2m | hr2
      · exact (hpre c hp).2
      · exact digit_ne (hd1 c hd) '勝' (by decide)
      · exact space_ne (hs1 c hs) '勝' (by decide)
      · rcases hsep with rfl | rfl <;> decide
      · exact space_ne (hs2 c hs2m) '勝' (by decide)
      · exact digit_ne (hd2 c hd2m) '勝' (by decide)
      · exact hrsheng c hr2
    have hsn := searchNative_none _ hnosheng
    have hm := matchDashAt_canonical d1 s1 s2 d2 r sep h1 h2 hd1 hd2 hs1 hs2 hsep hr
    have hsearch : searchDash (pre ++ (d1 ++ (s1 ++ (sep :: (s2 ++ (d2 ++ r)))))) =
        some ⟨digitsToNat d1, digitsToNat d2⟩ := by
      unfold searchDash
      rw [scanFor_skip matchDashAt pre _ (fun c hc t => matchDashAt_nodigit (hpre c hc).1 t),
        scanFor_of_match _ _ _ hm]
      rfl
    have hne : (pre ++ (d1 ++ (s1 ++ (sep :: (s2 ++ (d2 ++ r)))))) ≠ [] := by
      intro hcon
      exact h1 (List.append_eq_nil.mp (List.append_eq_nil.mp hcon).2).1
    simp only [parseRecord, if_neg hne, hsn, hsearch]
    rfl
  case none =>
    intro s hn hd
    cases s with
    | nil => rfl
    | cons c t => simp only [parseRecord, hn, hd]; rfl
  case prio =>
    intro s p hn
    cases s with
    | nil => rw [show searchNative [] = none from rfl] at hn; cases hn
    | cons c t => simp only [parseRecord, hn]; rfl

/-- Witness for C5 at concrete strings: `30勝25敗`, `客12 - 13`, a
non-matching text, and a native-priority input. -/
theorem c5_witness :
    (parseRecord (some ("30".data ++ (([] : Str) ++ ('勝' :: (([] : Str) ++
        ("25".data ++ (([] : Str) ++ ('敗' :: ([] : Str))))))))) =
      some ⟨digitsToNat "30".data, digitsToNat "25".data,
        digitsToNat "30".data + digitsToNat "25".data,
        if digitsToNat "30".data + digitsToNat "25".data > 0 then
          pyRound1 ((digitsToNat "30".data : ℚ) /
            ((digitsToNat "30".data + digitsToNat "25".data : ℕ) : ℚ) * 100)
        else 0⟩) ∧
    (parseRecord (some ("客".data ++ ("12".data ++ (" ".data ++ ('-' :: (" ".data ++
        ("13".data ++ ([] : Str)))))))) =
      some ⟨digitsToNat "12".data, digitsToNat "13".data,
        digitsToNat "12".data + digitsToNat "13".data,
        if digitsToNat "12".data + digitsToNat "13".data > 0 then
          pyRound1 ((digitsToNat "12".data : ℚ) /
            ((digitsToNat "12".data + digitsToNat "13".data : ℕ) : ℚ) * 100)
        else 0⟩) ∧
    parseRecord (some "hello".data) = none ∧
    parseRecord (some "1勝2敗".data) = some (mkRecFrag ⟨1, 2⟩) :=
  ⟨c5_parse_record_shapes.1 "30".data [] [] "25".data [] [] (by decide) (by decide)
      (by decide) (by decide) (by simp) (by simp) (by simp),
   c5_parse_record_shapes.2.1 "客".data "12".data " ".data " ".data "13".data [] '-'
      (by decide) (by decide) (by decide) (by decide) (by decide) (by decide)
      (Or.inl rfl) (by decide) (by simp) (by simp),
   c5_parse_record_shapes.2.2.1 "hello".data rfl rfl,
   c5_parse_record_shapes.2.2.2 "1勝2敗".data ⟨1, 2⟩ rfl⟩

/-- Evaluation helper: a successful average search with two valid float
groups produces the fragment. -/
theorem parseAvgScore_eval (s g1 g2 : Str) (a b : ℚ) (hne : s ≠ [])
    (hs : searchAvg s = some (g1, g2))
    (h1 : pyFloatOfDigitsDots g1 = some a) (h2 : pyFloatOfDigitsDots g2 = some b) :
    parseAvgScore (some s) = .ok (some ⟨a, b⟩) := by
  simp only [parseAvgScore, if_neg hne, hs, h1, h2]

/-- Float value of the group `113.5`. -/
theorem pyFloat_1135 : pyFloatOfDigitsDots "113.5".data = some (227/2 : ℚ) := by
  simp only [pyFloatOfDigitsDots]
  rw [if_pos (by decide)]
  rw [show "113.5".data.dropWhile Char.isDigit = '.' :: "5".data from by decide]
  rw [show digitsToNat ("113.5".data.takeWhile Char.isDigit) = 113 from by decide]
  dsimp only
  rw [show digitsToNat "5".data = 5 from by decide]
  rw [show ("5".data).length = 1 from by decide]
  norm_num

/-- Float value of the group `108.2`. -/
theorem pyFloat_1082 : pyFloatOfDigitsDots "108.2".data = some (541/5 : ℚ) := by
  simp only [pyFloatOfDigitsDots]
  rw [if_pos (by decide)]
  rw [show "108.2".data.dropWhile Char.isDigit = '.' :: "2".data from by decide]
  rw [show digitsToNat ("108.2".data.takeWhile Char.isDigit) = 108 from by decide]
  dsimp only
  rw [show digitsToNat "2".data = 2 from by decide]
  rw [show ("2".data).length = 1 from by decide]
  norm_num

/-- C6: the example `113.5 / 108.2` parses to `{scored: 113.5, allowed:
108.2}` and the parse is whitespace-insensitive around the slash; text
without a float/float match returns `None`; BUT the function is not total:
the matched group of `./.` is not a valid float and the unguarded `float`
conversion raises `ValueError` (the failure branch claimed unreachable is
reachable). -/
theorem c6_parse_avg_unguarded :
    parseAvgScore (some "113.5 / 108.2".data) = .ok (some ⟨227/2, 541/5⟩) ∧
    parseAvgScore (some "113.5/108.2".data) = .ok (some ⟨227/2, 541/5⟩) ∧
    parseAvgScore (some "113.5   /   108.2".data) = .ok (some ⟨227/2, 541/5⟩) ∧
    parseAvgScore (some "no numbers".data) = .ok none ∧
    parseAvgScore none = .ok none ∧
    parseAvgScore (some "./.".data) = .error .valueError :=
  ⟨parseAvgScore_eval _ "113.5".data "108.2".data _ _ (by decide) rfl pyFloat_1135 pyFloat_1082,
   parseAvgScore_eval _ "113.5".data "108.2".data _ _ (by decide) rfl pyFloat_1135 pyFloat_1082,
   parseAvgScore_eval _ "113.5".data "108.2".data _ _ (by decide) rfl pyFloat_1135 pyFloat_1082,
   rfl, rfl, rfl⟩

/-!  ## Score Reconciler (src/scraper.py lines 258-319 and 87-101)  -/

/-- Per-game data extracted by `parse_live_scores`. -/
structure SD where
  awayScore : Option ℤ
  homeScore : Option ℤ
  status : Option Status
  quarterScores : Option QS
  deriving DecidableEq, Repr

/-- Anchored matcher for the finditer pattern `id="outer-gamebox-(\d+)"`
(src/scraper.py line 263), returning the captured digit string. -/
def matchGameboxId (s : Str) : Option (Str × Str) :=
  if ("id=\"outer-gamebox-".data).isPrefixOf s then
    let rest := s.drop ("id=\"outer-gamebox-".data).length
    let d := rest.takeWhile Char.isDigit
    if d = [] then none else
    match rest.dropWhile Char.isDigit with
    | '"' :: r3 => some (d, r3)
    | _ => none
  else none

/-- All game ids found in the live page, `re.findall` semantics. -/
def findGameboxIds (html : Str) : List Str := scanAll matchGameboxId html

/-- Anchored matcher for the pattern `id="KEY"[^>]*>(\d+)<` used by every
score lookup of `parse_live_scores`; `lit` is the literal `id="KEY"`. -/
def matchIdNum (lit : Str) (s : Str) : Option (ℤ × Str) :=
  if lit.isPrefixOf s then
    let r1 := s.drop lit.length
    match r1.dropWhile (fun c => c != '>') with
    | '>' :: r3 =>
      let d := r3.takeWhile Char.isDigit
      if d = [] then none else
      match r3.dropWhile Char.isDigit with
      | '<' :: r5 => some ((digitsToNat d : ℤ), r5)
      | _ => none
    | _ => none
  else none

/-- Leftmost score lookup `re.search(rf'id="KEY"[^>]*>(\d+)<', html)`. -/
def searchIdNum (html : Str) (key : Str) : Option ℤ :=
  (scanFor (matchIdNum ("id=\"".data ++ (key ++ "\"".data))) html).map (·.1)

/-- Digit character of a single-digit period index (the loop runs q = 1..8,
so the Python f-string renders one digit). -/
def qDigit (q : ℕ) : Str := [Char.ofNat ('0'.toNat + q)]

/-- Container of one game in the live page: the window between
`id="outer-gamebox-GID"` and the following `<!--outer-gamebox-->` comment
(src/scraper.py lines 301-303); empty when either marker is missing. -/
def gbContainer (html gid : Str) : Str :=
  match findIn html ("id=\"outer-gamebox-".data ++ (gid ++ "\"".data)) with
  | none => []
  | some s =>
    match findFrom html "<!--outer-gamebox-->".data s with
    | none => []
    | some e => strSlice html s e

/-- Data extracted for one game id by the body of the `parse_live_scores`
loop (src/scraper.py lines 265-317). -/
def liveDataFor (html gid : Str) : SD :=
  let awayScore :=
    match searchIdNum html (gid ++ "_asr_big".data) with
    | some v => some v
    | none => searchIdNum html (gid ++ "_asr".data)
  let homeScore :=
    match searchIdNum html (gid ++ "_hsr_big".data) with
    | some v => some v
    | none => searchIdNum html (gid ++ "_hsr".data)
  let qRange : List ℕ := [1, 2, 3, 4, 5, 6, 7, 8]
  let qsAway := qRange.filterMap (fun q =>
    match searchIdNum html (gid ++ ("_as".data ++ qDigit q)) with
    | some v => some v
    | none => searchIdNum html (gid ++ ("_a".data ++ qDigit q)))
  let qsHome := qRange.filterMap (fun q =>
    match searchIdNum html (gid ++ ("_hs".data ++ qDigit q)) with
    | some v => some v
    | none => searchIdNum html (gid ++ ("_h".data ++ qDigit q)))
  let status : Option Status :=
    if awayScore ≠ none ∧ homeScore ≠ none then
      some (if containsSub (gbContainer html gid) "gamebox-notend".data then .live
            else .finished)
    else none
  let hasQs := qsAway.length > 0 ∨ qsHome.length > 0
  ⟨awayScore, homeScore, status, if hasQs then some ⟨qsAway, qsHome⟩ else none⟩

/-- Embedding of `parse_live_scores` (src/scraper.py lines 258-319): the
score map keyed by game id. -/
def parseLiveScores (html : Str) : List (Str × SD) :=
  (findGameboxIds html).map (fun gid => (gid, liveDataFor html gid))

/-- Dict lookup on the score map. -/
def sdLookup (scoreData : List (Str × SD)) (gid : Str) : Option SD :=
  (scoreData.find? (fun p => p.1 = gid)).map (·.2)

/-- Merge of one game with the live score map, the loop body of
`fetch_playsport` (src/scraper.py lines 88-99): each field is overwritten
only when the live value is non-absent. -/
def mergeOne (scoreData : List (Str × SD)) (g : Game) : Game :=
  if g.gameId ≠ [] then
    match sdLookup scoreData g.gameId with
    | none => g
    | some sd =>
      let g1 := match sd.awayScore with
        | some v => { g with awayScore := some v }
        | none => g
      let g2 := match sd.homeScore with
        | some v => { g1 with homeScore := some v }
        | none => g1
      let g3 := match sd.status with
        | some s => { g2 with status := s }
        | none => g2
      match sd.quarterScores with
      | some q => { g3 with quarterScores := some q }
      | none => g3
  else g

/-- Reconciliation of the extracted game list with the live page
(src/scraper.py lines 87-101). -/
def mergeScores (games : List Game) (scoreData : List (Str × SD)) : List Game :=
  games.map (mergeOne scoreData)

/-- A successful lookup in the live score map returns the data computed for
that game id. -/
theorem sdLookup_parseLive (html k : Str) (sd : SD)
    (h : sdLookup (parseLiveScores html) k = some sd) : sd = liveDataFor html k := by
  unfold sdLookup at h
  cases hf : List.find? (fun p => p.1 = k) (parseLiveScores html) with
  | none => rw [hf] at h; cases h
  | some p =>
    rw [hf] at h
    have hp1 : p.1 = k := by
      have := List.find?_some hf
      simpa using this
    have hmem := List.mem_of_find?_eq_some hf
    simp only [parseLiveScores, List.mem_map] at hmem
    obtain ⟨gid0, _, heq⟩ := hmem
    have h2 : p.2 = sd := by
      simpa using h
    rw [← h2, ← heq]
    rw [← heq] at hp1
    simp at hp1 ⊢
    rw [hp1]

/-- Status computed by the live parser is live or finished, present only when
both scores are, and live exactly when the in-progress marker is in the
game's container. -/
theorem liveDataFor_status (html gid : Str) :
    (∀ st, (liveDataFor html gid).status = some st →
      (liveDataFor html gid).awayScore ≠ none ∧ (liveDataFor html gid).homeScore ≠ none ∧
      (st = .live ∨ st = .finished) ∧
      (st = .live ↔ containsSub (gbContainer html gid) "gamebox-notend".data = true)) ∧
    ((liveDataFor html gid).awayScore = none ∨ (liveDataFor html gid).homeScore = none →
      (liveDataFor html gid).status = none) := by
  simp only [liveDataFor]
  by_cases hc : (match searchIdNum html (gid ++ "_asr_big".data) with
      | some v => some v
      | none => searchIdNum html (gid ++ "_asr".data)) ≠ none ∧
      (match searchIdNum html (gid ++ "_hsr_big".data) with
      | some v => some v
      | none => searchIdNum html (gid ++ "_hsr".data)) ≠ none
  · rw [if_pos hc]
    constructor
    · intro st hst
      refine ⟨hc.1, hc.2, ?_, ?_⟩
      · injection hst with hst2
        by_cases hm : containsSub (gbContainer html gid) "gamebox-notend".data = true
        · rw [if_pos hm] at hst2
          exact Or.inl hst2.symm
        · rw [if_neg hm] at hst2
          exact Or.inr hst2.symm
      · injection hst with hst2
        by_cases hm : containsSub (gbContainer html gid) "gamebox-notend".data = true
        · rw [if_pos hm] at hst2
          simp [← hst2, hm]
        · rw [if_neg hm] at hst2
          simp only [← hst2]
          constructor
          · intro hcon
            cases hcon
          · intro hmm
            exact absurd hmm hm
    · intro hor
      rcases hor with h1 | h2
      · exact absurd h1 (by simpa using hc.1)
      · exact absurd h2 (by simpa using hc.2)
  · rw [if_neg hc]
    refine ⟨fun st hst => absurd hst (by simp), fun _ => by simp⟩

/-- C7: the reconciliation merge overwrites a game's awayScore, homeScore,
status or quarterScores only when the live data holds a non-absent value for
that field (never replacing a set score with null and leaving every other
field unchanged); the live parser sets a status only when both scores are
non-null, choosing live iff the in-progress marker is in that game's
container and finished otherwise; and a game already marked finished is
never rolled back to upcoming. -/
theorem c7_merge_policy :
    (∀ (games : List Game) (scoreData : List (Str × SD)),
       mergeScores games scoreData = games.map (mergeOne scoreData)) ∧
    (∀ (scoreData : List (Str × SD)) (g : Game),
       (sdLookup scoreData g.gameId = none → mergeOne scoreData g = g) ∧
       (∀ sd, sdLookup scoreData g.gameId = some sd →
         ((mergeOne scoreData g).home = g.home ∧ (mergeOne scoreData g).away = g.away ∧
          (mergeOne scoreData g).id = g.id ∧ (mergeOne scoreData g).gameId = g.gameId ∧
          (mergeOne scoreData g).time = g.time ∧ (mergeOne scoreData g).record = g.record ∧
          (mergeOne scoreData g).odds = g.odds) ∧
         (sd.awayScore = none → (mergeOne scoreData g).awayScore = g.awayScore) ∧
         (sd.homeScore = none → (mergeOne scoreData g).homeScore = g.homeScore) ∧
         (sd.status = none → (mergeOne scoreData g).status = g.status) ∧
         (sd.quarterScores = none →
           (mergeOne scoreData g).quarterScores = g.quarterScores) ∧
         (g.awayScore ≠ none → (mergeOne scoreData g).awayScore ≠ none) ∧
         (g.homeScore ≠ none → (mergeOne scoreData g).homeScore ≠ none) ∧
         ((mergeOne scoreData g).status ≠ g.status →
           sd.status = some (mergeOne scoreData g).status))) ∧
    (∀ (html gid : Str) (sd : SD), (gid, sd) ∈ parseLiveScores html →
       (∀ st, sd.status = some st →
         sd.awayScore ≠ none ∧ sd.homeScore ≠ none ∧
         (st = .live ∨ st = .finished) ∧
         (st = .live ↔ containsSub (gbContainer html gid) "gamebox-notend".data = true)) ∧
       (sd.awayScore = none ∨ sd.homeScore = none → sd.status = none)) ∧
    (∀ (html : Str) (g : Game), g.status = .finished →
       (mergeOne (parseLiveScores html) g).status ≠ .upcoming) := by
  refine ⟨fun _ _ => rfl, ?merge, ?parse, ?noroll⟩
  case merge =>
    intro scoreData g
    constructor
    · intro hnone
      unfold mergeOne
      by_cases hgid : g.gameId ≠ []
      · simp [hgid, hnone]
      · simp [hgid]
    · intro sd hsd
      unfold mergeOne
      by_cases hgid : g.gameId ≠ []
      · simp only [if_pos hgid, hsd]
        obtain ⟨a, h, st, q⟩ := sd
        rcases a with - | av <;> rcases h with - | hv <;> rcases st with - | sv <;>
          rcases q with - | qv <;> simp
      · simp only [if_neg hgid]
        simp
  case parse =>
    intro html gid sd hmem
    simp only [parseLiveScores, List.mem_map] at hmem
    obtain ⟨gid0, _, heq⟩ := hmem
    have h1 : gid0 = gid := congrArg Prod.fst heq
    have h2 : liveDataFor html gid0 = sd := congrArg Prod.snd heq
    rw [← h2, h1]
    exact liveDataFor_status html gid
  case noroll =>
    intro html g hfin
    unfold mergeOne
    by_cases hgid : g.gameId ≠ []
    · simp only [if_pos hgid]
      cases hl : sdLookup (parseLiveScores html) g.gameId with
      | none => simp [hfin]
      | some sd =>
        have hsd := sdLookup_parseLive html g.gameId sd hl
        obtain ⟨a, h, st, q⟩ := sd
        rcases st with - | sv
        · rcases a with - | av <;> rcases h with - | hv <;> rcases q with - | qv <;>
            simp [hfin]
        · have hv2 : sv = .live ∨ sv = .finished := by
            have := (liveDataFor_status html g.gameId).1 sv
            rw [← hsd] at this
            exact (this rfl).2.2.1
          rcases a with - | av <;> rcases h with - | hv <;> rcases q with - | qv <;>
            rcases hv2 with rfl | rfl <;> simp
    · simp [hgid, hfin]

/-- Live score data fixture. -/
def sdW : SD := ⟨some 95, some 101, some .finished, none⟩

/-- Score map fixture keyed by game id 77. -/
def scoreDataW : List (Str × SD) := [("77".data, sdW)]

/-- Extractor-side game fixture with id 77. -/
def gW7 : Game := { gameId := "77".data, status := .upcoming }

/-- Live page fixture with one in-progress game 77 scoring 95:101. -/
def liveHtmlW : Str :=
  ("id=\"outer-gamebox-77\" x><i id=\"77_asr_big\">95<i id=\"77_hsr_big\">101<i gamebox-notend><!--outer-gamebox-->").data

/-- Witness for C7 at the concrete score map, game and live page fixtures. -/
theorem c7_witness :
    (mergeScores [gW7] scoreDataW = [gW7].map (mergeOne scoreDataW)) ∧
    (((mergeOne scoreDataW gW7).home = gW7.home ∧ (mergeOne scoreDataW gW7).away = gW7.away ∧
      (mergeOne scoreDataW gW7).id = gW7.id ∧ (mergeOne scoreDataW gW7).gameId = gW7.gameId ∧
      (mergeOne scoreDataW gW7).time = gW7.time ∧ (mergeOne scoreDataW gW7).record = gW7.record ∧
      (mergeOne scoreDataW gW7).odds = gW7.odds) ∧
     (sdW.awayScore = none → (mergeOne scoreDataW gW7).awayScore = gW7.awayScore) ∧
     (sdW.homeScore = none → (mergeOne scoreDataW gW7).homeScore = gW7.homeScore) ∧
     (sdW.status = none → (mergeOne scoreDataW gW7).status = gW7.status) ∧
     (sdW.quarterScores = none → (mergeOne scoreDataW gW7).quarterScores = gW7.quarterScores) ∧
     (gW7.awayScore ≠ none → (mergeOne scoreDataW gW7).awayScore ≠ none) ∧
     (gW7.homeScore ≠ none → (mergeOne scoreDataW gW7).homeScore ≠ none) ∧
     ((mergeOne scoreDataW gW7).status ≠ gW7.status →
       sdW.status = some (mergeOne scoreDataW gW7).status)) ∧
    ((liveDataFor liveHtmlW "77".data).awayScore ≠ none ∧
     (liveDataFor liveHtmlW "77".data).homeScore ≠ none ∧
     (Status.live = Status.live ∨ Status.live = Status.finished) ∧
     (Status.live = Status.live ↔
       containsSub (gbContainer liveHtmlW "77".data) "gamebox-notend".data = true)) ∧
    ((mergeOne (parseLiveScores liveHtmlW) { gameId := "77".data, status := .finished }).status ≠
      Status.upcoming) :=
  ⟨c7_merge_policy.1 [gW7] scoreDataW,
   (c7_merge_policy.2.1 scoreDataW gW7).2 sdW rfl,
   (c7_merge_policy.2.2.1 liveHtmlW "77".data (liveDataFor liveHtmlW "77".data)
      (by rw [show parseLiveScores liveHtmlW =
            [("77".data, liveDataFor liveHtmlW "77".data)] from rfl]
          exact List.mem_singleton.mpr rfl)).1 Status.live (by rfl),
   c7_merge_policy.2.2.2 liveHtmlW { gameId := "77".data, status := .finished } rfl⟩

/-!  ## League Fetch Orchestrator (src/scraper.py lines 13-36 and 322-346)  -/

/-- League catalog entry of `PS_LEAGUES`. -/
structure League where
  psId : Str
  name : Str
  deriving DecidableEq, Repr

/-- The `PS_LEAGUES` table (src/scraper.py lines 13-36); `PS_LEAGUES.get`
with an unknown sport yields the empty list. -/
def psLeagues (sport : Str) : List League :=
  if sport = "basketball".data then
    [⟨"3".data, "NBA".data⟩, ⟨"8".data, "歐洲職籃".data⟩, ⟨"89".data, "SBL".data⟩,
     ⟨"92".data, "韓國職籃".data⟩, ⟨"97".data, "日本職籃".data⟩]
  else if sport = "baseball".data then
    [⟨"1".data, "MLB".data⟩, ⟨"2".data, "日本職棒".data⟩, ⟨"6".data, "中華職棒".data⟩,
     ⟨"9".data, "韓國職棒".data⟩]
  else if sport = "soccer".data then [⟨"4".data, "足球".data⟩]
  else if sport = "hockey".data then [⟨"91".data, "NHL冰球".data⟩]
  else if sport = "tennis".data then [⟨"21".data, "網球".data⟩]
  else []

/-- The fixed status priority `{'live': 0, 'upcoming': 1, 'postponed': 2,
'finished': 3}` (src/scraper.py line 343); the dict covers every status the
pipeline assigns, so the default 9 is unreachable. -/
def statusOrder : Status → ℕ
  | .live => 0
  | .upcoming => 1
  | .postponed => 2
  | .finished => 3

/-- Lexicographic comparison of strings by code point, Python string `<=`. -/
def strLeB : Str → Str → Bool
  | [], _ => true
  | _ :: _, [] => false
  | a :: xs, b :: ys =>
    if a.toNat < b.toNat then true
    else if b.toNat < a.toNat then false
    else strLeB xs ys

/-- Sort key comparison of `fetch_all_games` (src/scraper.py line 344):
status priority first, then ascending lexical schedule-time text. -/
def gameLeB (a b : Game) : Bool :=
  if statusOrder a.status < statusOrder b.status then true
  else if statusOrder b.status < statusOrder a.status then false
  else strLeB a.time b.time

/-- Propositional form of the sort key comparison. -/
def gameLe (a b : Game) : Prop := gameLeB a b = true

instance : DecidableRel gameLe := fun a b => instDecidableEqBool (gameLeB a b) true

/-- String comparison is total. -/
theorem strLeB_total : ∀ x y : Str, strLeB x y = true ∨ strLeB y x = true := by
  intro x
  induction x with
  | nil => intro y; exact Or.inl rfl
  | cons a xs ih =>
    intro y
    cases y with
    | nil => exact Or.inr rfl
    | cons b ys =>
      simp only [strLeB]
      rcases Nat.lt_trichotomy a.toNat b.toNat with h | h | h
      · left; simp [h]
      · have h2 : ¬ a.toNat < b.toNat := by omega
        have h3 : ¬ b.toNat < a.toNat := by omega
        rcases ih ys with hxy | hyx
        · left; simp [h2, h3, hxy]
        · right; simp [h2, h3, hyx]
      · right; simp [h]

/-- String comparison is transitive. -/
theorem strLeB_trans : ∀ x y z : Str, strLeB x y = true → strLeB y z = true →
    strLeB x z = true := by
  intro x
  induction x with
  | nil => intro y z _ _; rfl
  | cons a xs ih =>
    intro y z hxy hyz
    cases y with
    | nil => simp [strLeB] at hxy
    | cons b ys =>
      cases z with
      | nil => simp [strLeB] at hyz
      | cons c zs =>
        simp only [strLeB] at hxy hyz ⊢
        by_cases hab : a.toNat < b.toNat <;> by_cases hbc : b.toNat < c.toNat
        · simp [show a.toNat < c.toNat by omega]
        · simp only [if_pos hab] at hxy
          simp only [if_neg hbc] at hyz
          by_cases hcb : c.toNat < b.toNat
          · simp [hcb] at hyz
          · have : b.toNat = c.toNat := by omega
            simp [show a.toNat < c.toNat by omega]
        · simp only [if_neg hab] at hxy
          by_cases hba : b.toNat < a.toNat
          · simp [hba] at hxy
          · have : a.toNat = b.toNat := by omega
            simp [show a.toNat < c.toNat by omega]
        · simp only [if_neg hab] at hxy
          simp only [if_neg hbc] at hyz
          by_cases hba : b.toNat < a.toNat
          · simp [hba] at hxy
          · by_cases hcb : c.toNat < b.toNat
            · simp [hcb] at hyz
            · simp only [if_neg hba] at hxy
              simp only [if_neg hcb] at hyz
              have h2 : ¬ a.toNat < c.toNat := by omega
              have h3 : ¬ c.toNat < a.toNat := by omega
              simp [h2, h3, ih ys zs hxy hyz]

instance : IsTotal Game gameLe := by
  constructor
  intro a b
  unfold gameLe gameLeB
  rcases Nat.lt_trichotomy (statusOrder a.status) (statusOrder b.status) with h | h | h
  · left; simp [h]
  · have h2 : ¬ statusOrder a.status < statusOrder b.status := by omega
    have h3 : ¬ statusOrder b.status < statusOrder a.status := by omega
    rcases strLeB_total a.time b.time with hs | hs
    · left; simp [h2, h3, hs]
    · right; simp [h2, h3, hs]
  · right; simp [h]

instance : IsTrans Game gameLe := by
  constructor
  intro a b c hab hbc
  unfold gameLe gameLeB at hab hbc ⊢
  by_cases h1 : statusOrder a.status < statusOrder b.status <;>
    by_cases h2 : statusOrder b.status < statusOrder c.status
  · simp [show statusOrder a.status < statusOrder c.status by omega]
  · simp only [if_pos h1] at hab
    by_cases h3 : statusOrder c.status < statusOrder b.status
    · simp [h2, h3] at hbc
    · have : statusOrder b.status = statusOrder c.status := by omega
      simp [show statusOrder a.status < statusOrder c.status by omega]
  · simp only [if_neg h1] at hab
    by_cases h3 : statusOrder b.status < statusOrder a.status
    · simp [h3] at hab
    · have : statusOrder a.status = statusOrder b.status := by omega
      simp [show statusOrder a.status < statusOrder c.status by omega]
  · simp only [if_neg h1] at hab
    simp only [if_neg h2] at hbc
    by_cases h3 : statusOrder b.status < statusOrder a.status
    · simp [h3] at hab
    · by_cases h4 : statusOrder c.status < statusOrder b.status
      · simp [h4] at hbc
      · simp only [if_neg h3] at hab
        simp only [if_neg h4] at hbc
        have h5 : ¬ statusOrder a.status < statusOrder c.status := by omega
        have h6 : ¬ statusOrder c.status < statusOrder a.status := by omega
        simp [h5, h6, strLeB_trans a.time b.time c.time hab hbc]

/-- Accumulation loop of `fetch_all_games` (src/scraper.py lines 333-340):
a league whose fetch raises contributes nothing, the others extend the
accumulator in catalog order. -/
def collectGames (leagues : List League) (fetch : League → Except Unit (List Game)) :
    List Game :=
  leagues.foldl (fun acc lg =>
    match fetch lg with
    | .ok gs => acc ++ gs
    | .error _ => acc) []

/-- Orchestration over an explicit league list: accumulate then sort by the
fixed status priority with lexical time tie-break (the in-place stable
`list.sort` of src/scraper.py line 344; a stable sort under a total preorder
is unique, embedded as insertion sort). -/
def fetchAllGamesFrom (leagues : List League)
    (fetch : League → Except Unit (List Game)) : List Game :=
  List.insertionSort gameLe (collectGames leagues fetch)

/-- Embedding of `fetch_all_games` (src/scraper.py lines 322-346) over a
fetch oracle standing for the network-dependent `fetch_playsport`. -/
def fetchAllGames (sport : Str) (fetch : League → Except Unit (List Game)) : List Game :=
  fetchAllGamesFrom (psLeagues sport) fetch

/-- C8: the list returned by `fetch_all_games` is sorted by the fixed status
priority live(0) < upcoming(1) < postponed(2) < finished(3) with ties broken
by ascending lexical schedule-time text, and is a permutation of the games
accumulated from the successful league fetches; a league whose fetch raises
contributes zero games without aborting the others, so with one failing and
one succeeding league the result is exactly the successful league's games in
sorted order. -/
theorem c8_fetch_all_ordering :
    (statusOrder Status.live = 0 ∧ statusOrder Status.upcoming = 1 ∧
     statusOrder Status.postponed = 2 ∧ statusOrder Status.finished = 3) ∧
    (∀ (sport : Str) (fetch : League → Except Unit (List Game)),
       List.Sorted gameLe (fetchAllGames sport fetch) ∧
       (fetchAllGames sport fetch).Perm (collectGames (psLeagues sport) fetch)) ∧
    (∀ (l1 l2 : League) (fetch : League → Except Unit (List Game)) (gs : List Game),
       fetch l1 = .error () → fetch l2 = .ok gs →
       List.Sorted gameLe (fetchAllGamesFrom [l1, l2] fetch) ∧
       (fetchAllGamesFrom [l1, l2] fetch).Perm gs) := by
  refine ⟨⟨rfl, rfl, rfl, rfl⟩, ?_, ?_⟩
  · intro sport fetch
    exact ⟨List.sorted_insertionSort gameLe _, List.perm_insertionSort gameLe _⟩
  · intro l1 l2 fetch gs h1 h2
    have hc : collectGames [l1, l2] fetch = gs := by
      simp [collectGames, h1, h2]
    refine ⟨List.sorted_insertionSort gameLe _, ?_⟩
    unfold fetchAllGamesFrom
    rw [hc]
    exact List.perm_insertionSort gameLe gs

/-- Fetch oracle fixture: the first basketball league times out, the rest
return a finished and a live game in that order. -/
def fetchW : League → Except Unit (List Game) :=
  fun l => if l.psId = "3".data then .error ()
    else .ok [{ status := .finished }, { status := .live }]

/-- Witness for C8 at the concrete oracle: sortedness, permutation, and the
one-failing-one-succeeding scenario. -/
theorem c8_witness :
    (List.Sorted gameLe (fetchAllGames "basketball".data fetchW) ∧
     (fetchAllGames "basketball".data fetchW).Perm
       (collectGames (psLeagues "basketball".data) fetchW)) ∧
    (List.Sorted gameLe (fetchAllGamesFrom [⟨"3".data, "NBA".data⟩, ⟨"4".data, "足球".data⟩] fetchW) ∧
     (fetchAllGamesFrom [⟨"3".data, "NBA".data⟩, ⟨"4".data, "足球".data⟩] fetchW).Perm
       [{ status := .finished }, { status := .live }]) :=
  ⟨c8_fetch_all_ordering.2.1 "basketball".data fetchW,
   c8_fetch_all_ordering.2.2 ⟨"3".data, "NBA".data⟩ ⟨"4".data, "足球".data⟩ fetchW
     [{ status := .finished }, { status := .live }] (by rfl) (by rfl)⟩

/-!  ## Document Extractor (src/scraper.py lines 104-255)  -/

/-- Scan for a literal inside the current tag: consume characters distinct
from `>` until the literal is a prefix, the embedding of `[^>]*LIT` with
leftmost-first-success semantics. -/
def scanInTag (lit : Str) : Str → Option Str
  | [] => none
  | c :: rest =>
    if lit.isPrefixOf (c :: rest) then some ((c :: rest).drop lit.length)
    else if c = '>' then none
    else scanInTag lit rest

/-- Drop-down option entry recognized by the select backup
(src/scraper.py lines 110-116). -/
structure SelOpt where
  value : Str
  away : Str
  home : Str
  deriving DecidableEq, Repr

/-- Anchored matcher for the finditer pattern
`<option[^>]*value="([^"]*)"[^>]*>([^<]*)</option>` (src/scraper.py line
110), returning the raw value and text groups. -/
def matchOptionTag (s : Str) : Option ((Str × Str) × Str) :=
  if ("<option".data).isPrefixOf s then
    match scanInTag "value=\"".data (s.drop ("<option".data).length) with
    | none => none
    | some r1 =>
      let v := r1.takeWhile (fun c => c != '"')
      match r1.dropWhile (fun c => c != '"') with
      | '"' :: r2 =>
        match r2.dropWhile (fun c => c != '>') with
        | '>' :: r3 =>
          let txt := r3.takeWhile (fun c => c != '<')
          let r4 := r3.dropWhile (fun c => c != '<')
          if ("</option>".data).isPrefixOf r4 then
            some ((v, txt), r4.drop ("</option>".data).length)
          else none
        | _ => none
      | _ => none
  else none

/-- Anchored matcher for the split pattern `\s*vs\s*`
(src/scraper.py line 114), returning the rest after the separator. -/
def matchVsAt (s : Str) : Option Str :=
  let r1 := skipSpaces s
  if ("vs".data).isPrefixOf r1 then some (skipSpaces (r1.drop 2)) else none

/-- Splitter loop for `re.split(r'\s*vs\s*', text)`: fuel-bounded scan
collecting the pieces between separator matches. -/
def vsSplitGo : ℕ → Str → Str → List Str
  | 0, acc, rest => [acc.reverse ++ rest]
  | _ + 1, acc, [] => [acc.reverse]
  | fuel + 1, acc, c :: rest =>
    match matchVsAt (c :: rest) with
    | some rem => acc.reverse :: vsSplitGo fuel [] rem
    | none => vsSplitGo fuel (c :: acc) rest

/-- Python `re.split(r'\s*vs\s*', text)`. -/
def vsSplitStr (text : Str) : List Str := vsSplitGo (text.length + 1) [] text

/-- Drop-down entries of the page (src/scraper.py lines 109-116): options
with a truthy value other than `'0'` whose stripped text contains `vs` and
splits into exactly two parts; the parts are stripped verbatim, so a text
like `vs B` yields an empty away name. -/
def selectGamesOf (html : Str) : List SelOpt :=
  (scanAll matchOptionTag html).filterMap (fun p =>
    let val := p.1
    let txt := pyStrip p.2
    if val = [] ∨ val = "0".data ∨ ¬ containsSub txt "vs".data then none
    else
      match vsSplitStr txt with
      | [a, h] => some ⟨val, pyStrip a, pyStrip h⟩
      | _ => none)

/-- Anchored matcher for the finditer pattern
`id="outer-gamebox-(\d+)"[^>]*data-oid="([^"]*)"` (src/scraper.py line 120),
returning the game id digits and the oid. -/
def matchBoxTag (s : Str) : Option ((Str × Str) × Str) :=
  if ("id=\"outer-gamebox-".data).isPrefixOf s then
    let r0 := s.drop ("id=\"outer-gamebox-".data).length
    let d := r0.takeWhile Char.isDigit
    if d = [] then none else
    match r0.dropWhile Char.isDigit with
    | '"' :: r1 =>
      match scanInTag "data-oid=\"".data r1 with
      | none => none
      | some r2 =>
        let oid := r2.takeWhile (fun c => c != '"')
        match r2.dropWhile (fun c => c != '"') with
        | '"' :: r3 => some ((d, oid), r3)
        | _ => none
    | _ => none
  else none

/-- All outer gameboxes of the pre-game page. -/
def boxesOf (html : Str) : List (Str × Str) := scanAll matchBoxTag html

/-- Preview window of one gamebox (src/scraper.py lines 130-133): from the
preview anchor to the `開打前的gamebox END` marker, else a 15000-character
window; empty when the anchor is missing (the extraction block is skipped). -/
def previewOf (html boxId : Str) : Str :=
  match findIn html ("id=\"gamebox-preview-".data ++ (boxId ++ "\"".data)) with
  | none => []
  | some s =>
    match findFrom html "開打前的gamebox END".data s with
    | some e => strSlice html s e
    | none => strSlice html s (s + 15000)

/-- Lazy group collector for `\s*([\s\S]*?)\s*</a>`: the shortest prefix
followed by optional whitespace and the closing anchor tag. -/
def lazyGroupToCloseA : ℕ → Str → Str → Option Str
  | 0, _, _ => none
  | fuel + 1, acc, s =>
    if ("</a>".data).isPrefixOf (skipSpaces s) then some acc.reverse
    else
      match s with
      | [] => none
      | c :: rest => lazyGroupToCloseA fuel (c :: acc) rest

/-- Anchored name extraction for the patterns
`team_left[^>]*>[\s\S]*?<a[^>]*>\s*([\s\S]*?)\s*</a>` and its `team_right`
twin (src/scraper.py lines 135-136), with leftmost-first-success semantics
for the lazy parts. -/
def matchTeamName (label ph : Str) : Option Str :=
  match findIn ph label with
  | none => none
  | some i =>
    match ((ph.drop i).drop label.length).dropWhile (fun c => c != '>') with
    | '>' :: r1 =>
      match findIn r1 "<a".data with
      | none => none
      | some j =>
        match ((r1.drop j).drop 2).dropWhile (fun c => c != '>') with
        | '>' :: r3 =>
          let r4 := skipSpaces r3
          lazyGroupToCloseA (r4.length + 1) [] r4
        | _ => none
    | _ => none

/-- Anchored time extraction for `team_cinter[^>]*>\s*([^<]+)`
(src/scraper.py line 137); the one-space backtracking case of a greedy
`\s*` followed by a non-empty `[^<]+` is modelled by keeping the last
whitespace character. -/
def matchCenter (ph : Str) : Option Str :=
  match findIn ph "team_cinter".data with
  | none => none
  | some i =>
    match ((ph.drop i).drop ("team_cinter".data).length).dropWhile (fun c => c != '>') with
    | '>' :: r1 =>
      let sp := r1.takeWhile pyIsSpace
      let grp := (r1.dropWhile pyIsSpace).takeWhile (fun c => c != '<')
      if grp ≠ [] then some grp
      else
        match sp.getLast? with
        | some c => some [c]
        | none => none
    | _ => none

/-- Tag remover `re.sub(r'<[^>]+>', '', s)` (src/scraper.py lines 150-151),
fuel-bounded left-to-right scan over non-overlapping matches. -/
def stripTagsGo : ℕ → Str → Str
  | 0, s => s
  | _ + 1, [] => []
  | fuel + 1, c :: rest =>
    if c = '<' then
      let inner := rest.takeWhile (fun x => x != '>')
      if inner ≠ [] then
        match rest.dropWhile (fun x => x != '>') with
        | '>' :: r3 => stripTagsGo fuel r3
        | _ => c :: stripTagsGo fuel rest
      else c :: stripTagsGo fuel rest
    else c :: stripTagsGo fuel rest

/-- Python `re.sub(r'<[^>]+>', '', s)`. -/
def stripTags (s : Str) : Str := stripTagsGo s.length s

/-- Python `s.replace(needle, "")`, fuel-bounded non-overlapping scan. -/
def removeAllGo : ℕ → Str → Str → Str
  | 0, s, _ => s
  | _ + 1, [], _ => []
  | fuel + 1, c :: rest, needle =>
    if needle ≠ [] ∧ needle.isPrefixOf (c :: rest) then
      removeAllGo fuel ((c :: rest).drop needle.length) needle
    else c :: removeAllGo fuel rest needle

/-- Python `s.replace('詳細比分', '')`. -/
def removeScoreDetail (s : Str) : Str := removeAllGo s.length s "詳細比分".data

/-- Cell cleanup of `extract_stat` (src/scraper.py lines 150-151): strip
tags, remove the detail-link text, strip whitespace. -/
def cleanStat (s : Str) : Str := pyStrip (removeScoreDetail (stripTags s))

/-- Anchored matcher for the `extract_stat` pattern
`datd_c[^>]*>\s*LABEL[\s\S]*?datd_l[^>]*>([\s\S]*?)</td>[\s\S]*?datd_r[^>]*>([\s\S]*?)</td>`
(src/scraper.py line 147). -/
def matchStatAt (label : Str) (s : Str) : Option ((Str × Str) × Str) :=
  if ("datd_c".data).isPrefixOf s then
    match (s.drop ("datd_c".data).length).dropWhile (fun c => c != '>') with
    | '>' :: r1 =>
      if label.isPrefixOf (skipSpaces r1) then
        let r3 := (skipSpaces r1).drop label.length
        match findIn r3 "datd_l".data with
        | none => none
        | some i =>
          match ((r3.drop i).drop ("datd_l".data).length).dropWhile (fun c => c != '>') with
          | '>' :: r5 =>
            match findIn r5 "</td>".data with
            | none => none
            | some j =>
              let g1 := r5.take j
              let r6 := (r5.drop j).drop ("</td>".data).length
              match findIn r6 "datd_r".data with
              | none => none
              | some k =>
                match ((r6.drop k).drop ("datd_r".data).length).dropWhile (fun c => c != '>') with
                | '>' :: r8 =>
                  match findIn r8 "</td>".data with
                  | none => none
                  | some m2 => some ((g1, r8.take m2), (r8.drop m2).drop ("</td>".data).length)
                | _ => none
          | _ => none
      else none
    | _ => none
  else none

/-- The `extract_stat` helper (src/scraper.py lines 146-153): left/right
cell pair for a labeled row, cleaned. -/
def extractStat (ph label : Str) : Option (Str × Str) :=
  (scanFor (matchStatAt label) ph).map (fun p => (cleanStat p.1.1, cleanStat p.1.2))

/-- Attribute value extraction for patterns like `data-aheadprice="([^"]*)"`
(src/scraper.py lines 181-195); `lit` includes the opening quote. -/
def extractAttr (s lit : Str) : Option Str :=
  match findIn s lit with
  | none => none
  | some i =>
    let r := (s.drop i).drop lit.length
    match r.dropWhile (fun c => c != '"') with
    | '"' :: _ => some (r.takeWhile (fun c => c != '"'))
    | _ => none

/-- Anchored clock matcher for `(\d{1,2}:\d{2})`: two digits preferred,
backtracking to one. -/
def matchClock (s : Str) : Option (Str × Str) :=
  match s with
  | a :: rest =>
    if a.isDigit then
      match rest with
      | b :: ':' :: c :: d :: r2 =>
        if b.isDigit ∧ c.isDigit ∧ d.isDigit then some ([a, b, ':', c, d], r2)
        else
          match rest with
          | ':' :: _ => none
          | _ => none
      | ':' :: c :: d :: r2 =>
        if c.isDigit ∧ d.isDigit then some ([a, ':', c, d], r2) else none
      | _ => none
    else none
  | [] => none

/-- Time backup `re.search(r'比賽時間[\s\S]*?(\d{1,2}:\d{2})', box_html)`
(src/scraper.py line 199). -/
def timeBackup (boxHtml : Str) : Option Str :=
  match findIn boxHtml "比賽時間".data with
  | none => none
  | some i =>
    (scanFor matchClock ((boxHtml.drop i).drop ("比賽時間".data).length)).map (·.1)

/-- Em-dash placeholder for an unknown team name. -/
def emDash : Str := "—".data

/-- The `box_html` window of one gamebox (src/scraper.py lines 177-180):
between the box anchor and the closing comment; empty when either marker is
missing (the odds/backup block is skipped). -/
def boxRegionOf (html boxId : Str) : Str :=
  match findIn html ("id=\"outer-gamebox-".data ++ (boxId ++ "\"".data)) with
  | none => []
  | some s =>
    match findFrom html "</div><!--outer-gamebox-->".data s with
    | none => []
    | some e => strSlice html s e

/-- Name pipeline of one gamebox (src/scraper.py lines 135-141, 189-195 and
204-209): preview slots, then attribute backups, then the select backup. -/
def boxNamesOf (html : Str) (selectGames : List SelOpt) (boxId oid : Str) : Str × Str :=
  let ph := previewOf html boxId
  let away0 := match matchTeamName "team_left".data ph with
    | some g => pyStrip g
    | none => []
  let home0 := match matchTeamName "team_right".data ph with
    | some g => pyStrip g
    | none => []
  let boxHtml := boxRegionOf html boxId
  let home1 := if home0 = [] then
      (match extractAttr boxHtml "data-nameh=\"".data with
       | some v => v
       | none => home0)
    else home0
  let away1 := if away0 = [] then
      (match extractAttr boxHtml "data-namea=\"".data with
       | some v => v
       | none => away0)
    else away0
  if away1 = [] ∨ home1 = [] then
    match selectGames.find? (fun sg => sg.value = oid) with
    | some sg => (if away1 = [] then sg.away else away1, if home1 = [] then sg.home else home1)
    | none => (away1, home1)
  else (away1, home1)

/-- Field assembly of one gamebox-path game (src/scraper.py lines 142-230)
given its resolved name pair: record rows, odds attributes, time with its
backup, the composite id, and the em-dash guard on each name. -/
def buildBoxGame (html psId gamedate leagueName : Str) (box : Str × Str)
    (names : Str × Str) : Game :=
  let boxId := box.1
  let oid := box.2
  let parts := oid.splitOn '_'
  let teamCodes := if parts.length > 2 then parts.getD 2 [] else []
  let ph := previewOf html boxId
  let time0 := match matchCenter ph with
    | some g => pyStrip g
    | none => []
  let record : RecordCtx :=
    let rec1 : RecordCtx := match extractStat ph "戰績".data with
      | some p => { awayRecord := some p.1, homeRecord := some p.2 }
      | none => {}
    let rec2 := match extractStat ph "近十場".data with
      | some p => { rec1 with awayRecent := some p.1, homeRecent := some p.2 }
      | none => rec1
    let rec3 := match extractStat ph "對戰紀錄".data with
      | some p => { rec2 with awayH2H := some p.1, homeH2H := some p.2 }
      | none => rec2
    let rec4 := match extractStat ph "平均得 / 失分".data with
      | some p => { rec3 with awayAvg := some p.1, homeAvg := some p.2 }
      | none => rec3
    match extractStat ph "主 / 客戰績".data with
    | some p => { rec4 with awayHomeAway := some p.1, homeHomeAway := some p.2 }
    | none => rec4
  let boxHtml := boxRegionOf html boxId
  let odds : OddsCtx :=
    { spread := extractAttr boxHtml "data-aheadprice=\"".data,
      spreadOdds := extractAttr boxHtml "data-aheadodds=\"".data }
  let time1 := if time0 = [] then
      (match timeBackup boxHtml with
       | some v => v
       | none => time0)
    else time0
  let dateStr := strSlice gamedate 0 4 ++ ('-' :: (strSlice gamedate 4 6 ++ ('-' :: strSlice gamedate 6 8)))
  { id := "ps_".data ++ (psId ++ ('_' :: (gamedate ++ ('_' :: boxId)))),
    gameId := boxId, oid := oid, league := leagueName, leagueId := psId,
    away := some (if names.1 = [] then emDash else names.1),
    home := some (if names.2 = [] then emDash else names.2),
    awayScore := none, homeScore := none, date := dateStr, time := time1,
    status := .upcoming, record := record, odds := odds,
    teamCodes := teamCodes, quarterScores := none }

/-- Gamebox-path construction of one game: emitted only when at least one
side has a name (src/scraper.py line 211). -/
def mkBoxGame (html psId gamedate leagueName : Str) (selectGames : List SelOpt)
    (box : Str × Str) : Option Game :=
  let names := boxNamesOf html selectGames box.1 box.2
  if names.1 ≠ [] ∨ names.2 ≠ [] then
    some (buildBoxGame html psId gamedate leagueName box names)
  else none

/-- Structured gamebox path of the extractor. -/
def boxGamesOf (html psId gamedate leagueName : Str) : List Game :=
  (boxesOf html).filterMap (mkBoxGame html psId gamedate leagueName (selectGamesOf html))

/-- Drop-down fallback path (src/scraper.py lines 233-253): one minimal game
per select entry, names copied verbatim. -/
def selFallbackGames (html psId gamedate leagueName : Str) : List Game :=
  (selectGamesOf html).enum.map (fun p =>
    let dateStr := strSlice gamedate 0 4 ++ ('-' :: (strSlice gamedate 4 6 ++ ('-' :: strSlice gamedate 6 8)))
    { id := "ps_".data ++ (psId ++ ('_' :: (gamedate ++ ("_sel_".data ++ Nat.toDigits 10 p.1)))),
      gameId := "sel_".data ++ Nat.toDigits 10 p.1, oid := p.2.value,
      league := leagueName, leagueId := psId,
      away := some p.2.away, home := some p.2.home,
      awayScore := none, homeScore := none, date := dateStr, time := [],
      status := .upcoming, record := {}, odds := {}, teamCodes := [],
      quarterScores := none })

/-- Embedding of `parse_pre_html` (src/scraper.py lines 104-255). -/
def parsePreHtml (html psId gamedate leagueName : Str) : List Game :=
  if boxGamesOf html psId gamedate leagueName = [] then
    selFallbackGames html psId gamedate leagueName
  else boxGamesOf html psId gamedate leagueName

/-- Home field of the assembled gamebox game. -/
theorem buildBoxGame_home (html psId gamedate leagueName : Str) (box : Str × Str)
    (names : Str × Str) :
    (buildBoxGame html psId gamedate leagueName box names).home =
      some (if names.2 = [] then emDash else names.2) := rfl

/-- Away field of the assembled gamebox game. -/
theorem buildBoxGame_away (html psId gamedate leagueName : Str) (box : Str × Str)
    (names : Str × Str) :
    (buildBoxGame html psId gamedate leagueName box names).away =
      some (if names.1 = [] then emDash else names.1) := rfl

/-- A name wrapped by the `away or '—'` guard is never the empty string. -/
theorem guardName (a : Str) : some (if a = [] then emDash else a) ≠ some ([] : Str) := by
  by_cases h : a = []
  · simp only [h, if_pos]
    intro hc
    injection hc with hc2
    exact absurd hc2 (by decide)
  · simp only [if_neg h]
    intro hc
    injection hc with hc2
    exact h hc2

set_option maxRecDepth 100000 in
/-- Pre-game page fixture whose only option text starts with `vs`. -/
def preHtmlW : Str := "<option value=\"1\">vs B</option>".data

/-- Counterexample to C9: with no gamebox and the option text `vs B`, the
drop-down fallback path emits a game whose away name is the EMPTY string
(the fallback path copies the vs-split parts verbatim, without the
`or '—'` guard of the gamebox path). -/
theorem c9_counterexample :
    (parsePreHtml preHtmlW "9".data "20260101".data "L".data).map Game.away =
      [some ([] : Str)] ∧
    ([] : Str) ≠ emDash ∧ some ([] : Str) ≠ none := by
  refine ⟨by rfl, by decide, by simp⟩

/-- C9 (amended): every game of the structured gamebox path has home and
away names that are non-null and non-empty (a real name or the em-dash
placeholder); games of the drop-down fallback path have non-null names
copied verbatim from the vs-split, which may be empty. -/
theorem c9_extractor_names (html psId gamedate leagueName : Str) :
    (∀ g ∈ boxGamesOf html psId gamedate leagueName,
       g.home ≠ none ∧ g.away ≠ none ∧ g.home ≠ some ([] : Str) ∧ g.away ≠ some ([] : Str)) ∧
    (∀ g ∈ parsePreHtml html psId gamedate leagueName, g.home ≠ none ∧ g.away ≠ none) ∧
    parsePreHtml html psId gamedate leagueName =
      (if boxGamesOf html psId gamedate leagueName = [] then
        selFallbackGames html psId gamedate leagueName
      else boxGamesOf html psId gamedate leagueName) := by
  have hbox : ∀ g ∈ boxGamesOf html psId gamedate leagueName,
      g.home ≠ none ∧ g.away ≠ none ∧ g.home ≠ some ([] : Str) ∧ g.away ≠ some ([] : Str) := by
    intro g hg
    simp only [boxGamesOf, List.mem_filterMap] at hg
    obtain ⟨box, _, hmk⟩ := hg
    simp only [mkBoxGame] at hmk
    split at hmk
    · injection hmk with h2
      subst h2
      rw [buildBoxGame_home, buildBoxGame_away]
      exact ⟨by simp, by simp, guardName _, guardName _⟩
    · cases hmk
  refine ⟨hbox, ?_, rfl⟩
  intro g hg
  simp only [parsePreHtml] at hg
  split at hg
  · simp only [selFallbackGames, List.mem_map] at hg
    obtain ⟨p, _, rfl⟩ := hg
    exact ⟨by simp, by simp⟩
  · exact ⟨(hbox g hg).1, (hbox g hg).2.1⟩

/-- Pre-game page fixture with one gamebox carrying attribute names. -/
def c9HtmlW : Str :=
  ("<div id=\"outer-gamebox-12\" data-oid=\"5\" data-nameh=\"H\" data-namea=\"A\"></div><!--outer-gamebox-->").data

/-- Game emitted by the gamebox path on the fixture. -/
def gBoxW : Game :=
  { id := "ps_9_20260101_12".data, gameId := "12".data, oid := "5".data,
    league := "L".data, leagueId := "9".data,
    away := some "A".data, home := some "H".data,
    date := "2026-01-01".data, time := [], status := .upcoming }

set_option maxRecDepth 1000000 in
/-- Witness for the amended C9 at the concrete gamebox fixture. -/
theorem c9_witness :
    gBoxW.home ≠ none ∧ gBoxW.away ≠ none ∧
    gBoxW.home ≠ some ([] : Str) ∧ gBoxW.away ≠ some ([] : Str) :=
  (c9_extractor_names c9HtmlW "9".data "20260101".data "L".data).1 gBoxW
    (by rw [show boxGamesOf c9HtmlW "9".data "20260101".data "L".data = [gBoxW] from rfl]
        exact List.mem_singleton.mpr rfl)
